import Mathlib

/-!
# Verification of the chess-engine core

A shallow embedding of the repository's core: the bit-packed board
(`chess-board.ts`), the rules engine (`chess-engine.ts`, class
`ChessEngine`), and the SAN layer (`chess-notation.ts`).

Conventions of the embedding:
* Piece types are the numeric values of the `PieceType` enum:
  `None = 0`, `King = 3`, `Bishop = 5`, `Rook = 6`, `Queen = 7`,
  `Knight = 8`, `Pawn = 9`, `EmptySquare = 250` (environmental values
  are `≥ 250`).
* JS numbers that are always integers in the source are `Int` (board
  coordinates, which may be negative) or `Nat` (piece bytes, owners,
  turn counters, list lengths).
* A JS `x === undefined`-able value is an `Option`; in particular a
  tile's coordinates are `Option Int` because the board getter omits
  them for out-of-bounds queries, and the result of `parseInt` on a
  non-digit (`NaN`) is `none`.
* `ChessEngine.isValidMove`, `isCastlingValid` and `isSquareUnderAttack`
  are mutually recursive in the source (castling safety scans the board
  with turn-free validity queries, which may themselves ask about
  castling).  The embedding indexes this recursion by an explicit fuel:
  each nesting level of an attack scan consumes one unit.  All other
  loops of the source are bounded and get exact fuel (the number of
  iterations the source's loop performs).
-/

/-- One board cell as returned by `ChessBoard.getTile`: unpacked piece
value and owner, plus the coordinates (absent for out-of-bounds reads). -/
structure ChessBoardTile where
  piece : Nat
  owner_identifier : Nat
  x : Option Int
  y : Option Int
  deriving Repr, DecidableEq

/-- The board: dimensions plus the flat row-major byte buffer
(`tiles[y * width + x]`). -/
structure ChessBoard where
  width : Int
  height : Int
  tiles : List Nat
  deriving Repr, DecidableEq

/-- `ChessBoard.isOutOfBounds`. -/
def ChessBoard.isOutOfBounds (b : ChessBoard) (x y : Int) : Bool :=
  x < 0 || b.width ≤ x || y < 0 || b.height ≤ y

/-- Row-major buffer index `y * width + x` (non-negative whenever the
coordinates are in bounds). -/
def ChessBoard.idx (b : ChessBoard) (x y : Int) : Nat :=
  (y * b.width + x).toNat

/-- The byte written by `ChessBoard.setTile`: environmental values
(`≥ 250`) verbatim, otherwise `(min(owner,14) << 4) | (piece & 0x0F)`. -/
def packTile (piece owner : Nat) : Nat :=
  if 250 ≤ piece then piece else ((min owner 14) <<< 4) ||| (piece &&& 15)

/-- `ChessBoard.setTile`: out-of-bounds writes are silently dropped. -/
def ChessBoard.setTile (b : ChessBoard) (x y : Int) (piece owner : Nat) :
    ChessBoard :=
  if b.isOutOfBounds x y then b
  else { b with tiles := b.tiles.set (b.idx x y) (packTile piece owner) }

/-- `ChessBoard.getTile`: out-of-bounds reads yield a neutral
`EmptySquare` tile with owner `0` and no coordinates; missing buffer
entries default to `EmptySquare` (the source's `?? EmptySquare`). -/
def ChessBoard.getTile (b : ChessBoard) (x y : Int) : ChessBoardTile :=
  if b.isOutOfBounds x y then ⟨250, 0, none, none⟩
  else
    let packed := b.tiles.getD (b.idx x y) 250
    if 250 ≤ packed then ⟨packed, 0, some x, some y⟩
    else ⟨packed &&& 15, (packed >>> 4) &&& 15, some x, some y⟩

/-- `ChessBoard.clone`.  Boards are immutable values in the embedding,
so a deep copy is the board itself. -/
def ChessBoard.clone (b : ChessBoard) : ChessBoard := b

/-- A team: identifier plus member participant identifiers. -/
structure ChessGameTeam where
  team_identifier : Nat
  player_identifiers : List Nat
  deriving Repr, DecidableEq

/-- Castling rights of one participant. -/
structure CastlingRights where
  kingSide : Bool
  queenSide : Bool
  deriving Repr, DecidableEq

/-- A move request: source, destination, optional promotion piece. -/
structure ChessBoardMove where
  fromX : Int
  fromY : Int
  toX : Int
  toY : Int
  promotion : Option Nat
  deriving Repr, DecidableEq

/-- The game state (`ChessGameState`).  The castling-rights `Map` is a
key/value list looked up by participant identifier. -/
structure ChessGameState where
  board : ChessBoard
  turn : Nat
  participants : List Nat
  teams : List ChessGameTeam
  castlingRights : List (Nat × CastlingRights)
  enPassantTarget : Option (Int × Int)
  moveHistory : List ChessBoardMove
  deriving Repr, DecidableEq

/-- `castlingRights.get(p)` of the source's `Map`. -/
def lookupRights (rights : List (Nat × CastlingRights)) (p : Nat) :
    Option CastlingRights :=
  (rights.find? (fun kv => kv.1 == p)).map (·.2)

/-- `castlingRights.set(p, v)` of the source's `Map`: replace the entry
if the key is present, append otherwise. -/
def setRights (rights : List (Nat × CastlingRights)) (p : Nat)
    (v : CastlingRights) : List (Nat × CastlingRights) :=
  if rights.any (fun kv => kv.1 == p) then
    rights.map (fun kv => if kv.1 == p then (p, v) else kv)
  else rights ++ [(p, v)]

/-- `ChessEngine.newGame`. -/
def newGame (board : ChessBoard) (teams : List ChessGameTeam) :
    ChessGameState :=
  { board := board
    turn := 0
    participants := teams.flatMap (·.player_identifiers)
    teams := teams
    castlingRights := []
    enPassantTarget := none
    moveHistory := [] }

/-- `ChessEngine.areTeammates`: same participant, or both members of a
common team. -/
def areTeammates (s : ChessGameState) (p1 p2 : Nat) : Bool :=
  p1 == p2 ||
    s.teams.any (fun t =>
      t.player_identifiers.contains p1 && t.player_identifiers.contains p2)

/-- "This square does not block / is empty" test used throughout the
engine: the piece value is `None` (0) or `EmptySquare` (250). -/
def tileEmptyPiece (p : Nat) : Bool := p == 0 || p == 250

/-- `ChessEngine.isKinematicallyValid`: pure geometry from the piece's
capability bits (the `owner` parameter of the source is unused). -/
def isKinematicallyValid (piece : Nat) (dx dy : Int) : Bool :=
  let absDx := dx.natAbs
  let absDy := dy.natAbs
  let maxDelta := max absDx absDy
  if piece &&& 8 ≠ 0 then
    -- special pieces: only the knight moves here, the pawn (and any
    -- other special value) reports false and is handled by pawn logic
    if piece == 8 then
      (absDx == 1 && absDy == 2) || (absDx == 2 && absDy == 1)
    else false
  else
    let isDiagonal := absDx == absDy && absDx != 0
    let isOrthogonal := (dx == 0 || dy == 0) && (dx != 0 || dy != 0)
    if isDiagonal && (piece &&& 1 != 0) then
      (piece &&& 4 != 0) || maxDelta == 1
    else if isOrthogonal && (piece &&& 2 != 0) then
      (piece &&& 4 != 0) || maxDelta == 1
    else false

/-- The pawn's forward direction: owner 1 moves toward decreasing `y`,
every other owner toward increasing `y`. -/
def pawnDirection (owner : Nat) : Int := if owner == 1 then -1 else 1

/-- `ChessEngine.isValidPawnMove`. -/
def isValidPawnMove (s : ChessGameState) (startTile endTile : ChessBoardTile)
    (dx dy : Int) (absDx _absDy : Nat) : Bool :=
  let direction := pawnDirection startTile.owner_identifier
  if dx == 0 && (dy == direction || dy == direction * 2) then
    -- forward moves only onto an empty square
    if !tileEmptyPiece endTile.piece then false
    else if dy == direction * 2 then
      -- double step: starting rank, then a clear intermediate square
      let height := s.board.height
      let expectedStartY : Int :=
        if startTile.owner_identifier == 1 then height - 2 else 1
      if startTile.y != some expectedStartY then false
      else
        let intermediate :=
          (s.board.getTile (startTile.x.getD 0 + 0)
            (startTile.y.getD 0 + direction)).piece
        if !tileEmptyPiece intermediate then false else true
    else true
  else if absDx == 1 && dy == direction then
    -- diagonal: a capture of an occupied square, or of the registered
    -- en-passant target square
    if !tileEmptyPiece endTile.piece then true
    else
      match s.enPassantTarget, endTile.x, endTile.y with
      | some ep, some ex, some ey => ep.1 == ex && ep.2 == ey
      | _, _, _ => false
  else false

/-- The king's path-clearance loop of `ChessEngine.isCastlingValid`:
`while (checkX !== toX) { blocked? return false; checkX += step }`,
with exact fuel (the loop runs `|dx| - 1` times plus the final test). -/
def castleWalk (b : ChessBoard) (y toX step : Int) :
    Nat → Int → Bool
  | 0, _ => true
  | n + 1, x =>
    if x == toX then true
    else if !tileEmptyPiece (b.getTile x y).piece then false
    else castleWalk b y toX step n (x + step)

/-- `ChessEngine.isCastlingValid`, parameterized by the attacked-square
oracle (the fuel-indexed `isSquareUnderAttack` is substituted by the
caller). -/
def isCastlingValidGiven (attack : Int → Int → Bool) (s : ChessGameState)
    (kingTile : ChessBoardTile) (toX toY : Int) : Bool :=
  match lookupRights s.castlingRights kingTile.owner_identifier with
  | none => false
  | some rights =>
    let kx := kingTile.x.getD 0
    let ky := kingTile.y.getD 0
    let dx := toX - kx
    if dx > 0 && !rights.kingSide then false
    else if dx < 0 && !rights.queenSide then false
    else
      let step : Int := if dx > 0 then 1 else -1
      if !castleWalk s.board ky toX step dx.natAbs (kx + step) then false
      else if attack kx ky then false
      else if attack (kx + step) ky then false
      else if attack toX toY then false
      else true

/-- The slider path-obstruction loop of `ChessEngine.isValidMove`:
`while (checkX !== toX || checkY !== toY)`, with exact fuel
(`max |dx| |dy|` covers the `maxDelta - 1` intermediate squares). -/
def pathWalk (b : ChessBoard) (toX toY stepX stepY : Int) :
    Nat → Int → Int → Bool
  | 0, _, _ => true
  | n + 1, x, y =>
    if x == toX && y == toY then true
    else if !tileEmptyPiece (b.getTile x y).piece then false
    else pathWalk b toX toY stepX stepY n (x + stepX) (y + stepY)

/-- `dx === 0 ? 0 : dx / Math.abs(dx)`. -/
def stepSign (d : Int) : Int := if d == 0 then 0 else if d > 0 then 1 else -1

/-- The whole-board scan of `ChessEngine.isSquareUnderAttack`,
parameterized by the validity query used on each candidate attacker
(row-major, skipping empty/environmental tiles and teammates of the
defender). -/
def attackScan (s : ChessGameState) (valid : Int → Int → Bool)
    (defenderOwner : Nat) : Bool :=
  (List.range s.board.height.toNat).any fun yn =>
    (List.range s.board.width.toNat).any fun xn =>
      let tile := s.board.getTile (xn : Int) (yn : Int)
      if tile.piece == 0 || tile.piece == 250 || 250 ≤ tile.piece then false
      else if areTeammates s tile.owner_identifier defenderOwner then false
      else valid (xn : Int) (yn : Int)

/-- The body of `ChessEngine.isValidMove` with the castling validation
abstracted out (`castleCheck` receives the king's tile and the
destination).  The sequence of early `return false`s of the source is
the if-chain here. -/
def isValidMoveCore (castleCheck : ChessBoardTile → Int → Int → Bool)
    (s : ChessGameState) (fromX fromY toX toY : Int) (ignoreTurn : Bool) :
    Bool :=
  let board := s.board
  if board.isOutOfBounds fromX fromY || board.isOutOfBounds toX toY then false
  else if fromX == toX && fromY == toY then false
  else
    let startTile := board.getTile fromX fromY
    let endTile := board.getTile toX toY
    if startTile.piece == 0 || 250 ≤ startTile.piece then false
    else if !ignoreTurn &&
        (s.participants.get? (s.turn % s.participants.length) !=
          some startTile.owner_identifier) then false
    else if endTile.owner_identifier != 0 &&
        areTeammates s startTile.owner_identifier endTile.owner_identifier then
      false
    else
      let dx := toX - fromX
      let dy := toY - fromY
      let absDx := dx.natAbs
      let absDy := dy.natAbs
      let branchOK :=
        if startTile.piece == 9 then
          isValidPawnMove s startTile endTile dx dy absDx absDy
        else if startTile.piece == 3 && absDx > 1 then
          castleCheck startTile toX toY
        else isKinematicallyValid startTile.piece dx dy
      if !branchOK then false
      else if startTile.piece &&& 4 != 0 then
        pathWalk board toX toY (stepSign dx) (stepSign dy) (max absDx absDy)
          (fromX + stepSign dx) (fromY + stepSign dy)
      else true

/-- `ChessEngine.isValidMove`, indexed by the attack-scan recursion
depth.  At fuel `n + 1` a castling attempt runs the three
`isSquareUnderAttack` safety scans at depth `n`; fuel `0` has no scan
budget left and rejects castling (unreachable for any terminating run
of the source). -/
def isValidMove : Nat → ChessGameState → Int → Int → Int → Int → Bool → Bool
  | 0, s, fromX, fromY, toX, toY, ignoreTurn =>
    isValidMoveCore (fun _ _ _ => false) s fromX fromY toX toY ignoreTurn
  | n + 1, s, fromX, fromY, toX, toY, ignoreTurn =>
    isValidMoveCore
      (fun kingTile toX' toY' =>
        isCastlingValidGiven
          (fun ax ay =>
            attackScan s (fun px py => isValidMove n s px py ax ay true)
              kingTile.owner_identifier)
          s kingTile toX' toY')
      s fromX fromY toX toY ignoreTurn

/-- `ChessEngine.isSquareUnderAttack` at attack-scan recursion depth
`n`: some non-teammate piece of the defender can reach the square by a
turn-free `isValidMove` at fuel `n`. -/
def isSquareUnderAttack (n : Nat) (s : ChessGameState) (targetX targetY : Int)
    (defenderOwner : Nat) : Bool :=
  attackScan s (fun px py => isValidMove n s px py targetX targetY true)
    defenderOwner

/-- The rook-finding loop of `ChessEngine.applyMove`'s castling step:
`while (getTile(x,y).piece === EmptySquare && !isOutOfBounds(x,y))
x += step`, returning the first `x` where the loop stops.  Fuel
`width + 1` always exceeds the number of iterations the source's loop
performs (an in-bounds run leaves the board after at most `width`
steps and an out-of-bounds start stops at once). -/
def rookScan (b : ChessBoard) (y step : Int) : Nat → Int → Int
  | 0, x => x
  | n + 1, x =>
    if (b.getTile x y).piece == 250 && !b.isOutOfBounds x y then
      rookScan b y step n (x + step)
    else x

/-- `ChessEngine.applyMove`: no legality re-validation; promotion
substitution, en-passant removal, castling rook relocation, the primary
relocation, then the derived bookkeeping fields. -/
def applyMove (s : ChessGameState) (m : ChessBoardMove) : ChessGameState :=
  let newBoard := s.board.clone
  let startTile := s.board.getTile m.fromX m.fromY
  let piece := startTile.piece
  let owner := startTile.owner_identifier
  -- promotion: applied only for a pawn with a truthy promotion value
  -- (`PieceType.None = 0` is falsy in the source)
  let finalPiece :=
    match m.promotion with
    | some p => if piece == 9 && p != 0 then p else piece
    | none => piece
  -- en-passant capture: a pawn moving one file sideways onto an empty
  -- square removes the pawn directly behind the destination
  let newBoard1 :=
    if piece == 9 && (m.toX - m.fromX).natAbs == 1 then
      if tileEmptyPiece (newBoard.getTile m.toX m.toY).piece then
        let direction := pawnDirection owner
        newBoard.setTile m.toX (m.toY - direction) 250 0
      else newBoard
    else newBoard
  -- castling: scan outward from the king's destination for the rook
  let newBoard2 :=
    if piece == 3 && (m.toX - m.fromX).natAbs > 1 then
      let dx := m.toX - m.fromX
      let y := m.fromY
      let rookDestX := if dx > 0 then m.toX - 1 else m.toX + 1
      let step : Int := if dx > 0 then 1 else -1
      let rookSrcX :=
        rookScan newBoard1 y step (newBoard1.width.toNat + 1) (m.toX + step)
      if (newBoard1.getTile rookSrcX y).piece == 6 then
        (newBoard1.setTile rookDestX y 6 owner).setTile rookSrcX y 250 0
      else newBoard1
    else newBoard1
  -- primary relocation
  let newBoard3 :=
    (newBoard2.setTile m.toX m.toY finalPiece owner).setTile m.fromX m.fromY
      250 0
  -- castling rights: full revocation on a king move, side revocation on
  -- a rook move from a board-edge file
  let ncr1 :=
    if piece == 3 then setRights s.castlingRights owner ⟨false, false⟩
    else s.castlingRights
  let ncr2 :=
    if piece == 6 then
      if m.fromX == 0 then
        match lookupRights ncr1 owner with
        | some r => setRights ncr1 owner { r with queenSide := false }
        | none => ncr1
      else if m.fromX == s.board.width - 1 then
        match lookupRights ncr1 owner with
        | some r => setRights ncr1 owner { r with kingSide := false }
        | none => ncr1
      else ncr1
    else ncr1
  -- en-passant target: set only on a pawn two-rank move
  let newEnPassant : Option (Int × Int) :=
    if piece == 9 && (m.toY - m.fromY).natAbs == 2 then
      some (m.fromX, (m.fromY + m.toY) / 2)
    else none
  { board := newBoard3
    turn := (s.turn + 1) % s.participants.length
    participants := s.participants
    teams := s.teams
    castlingRights := ncr2
    enPassantTarget := newEnPassant
    moveHistory := s.moveHistory ++ [m] }

/-- ASCII `toUpperCase` on one character (the argument alphabet here is
only the lowercase FEN piece letters). -/
def asciiUpper (c : Char) : Char :=
  if 'a' ≤ c ∧ c ≤ 'z' then Char.ofNat (c.toNat - 32) else c

/-- ASCII `toUpperCase` on a string. -/
def strUpper (str : String) : String := ⟨str.data.map asciiUpper⟩

/-- The `pieceToChar` helper of `ChessEngine.toFEN` (uppercase for
owner 1, unmapped pieces yield the empty string). -/
def pieceToChar (piece owner : Nat) : String :=
  let c :=
    if piece == 9 then "p"
    else if piece == 8 then "n"
    else if piece == 5 then "b"
    else if piece == 6 then "r"
    else if piece == 7 then "q"
    else if piece == 3 then "k"
    else ""
  if owner == 1 then strUpper c else c

/-- One FEN board row of `ChessEngine.toFEN`: run-length-encoded
empty/environmental squares, pieces by letter. -/
def fenRow (b : ChessBoard) (y : Int) : String :=
  let folded :=
    (List.range b.width.toNat).foldl
      (fun (acc : String × Nat) xn =>
        let tile := b.getTile (xn : Int) y
        if tile.piece == 0 || tile.piece == 250 || 250 ≤ tile.piece then
          (acc.1, acc.2 + 1)
        else if acc.2 > 0 then
          (acc.1 ++ toString acc.2 ++ pieceToChar tile.piece
            tile.owner_identifier, 0)
        else (acc.1 ++ pieceToChar tile.piece tile.owner_identifier, 0))
      ("", 0)
  if folded.2 > 0 then folded.1 ++ toString folded.2 else folded.1

/-- The board section of `ChessEngine.toFEN`: rows from `y = 0` up. -/
def fenRows (s : ChessGameState) : List String :=
  (List.range s.board.height.toNat).map fun yn => fenRow s.board (yn : Int)

/-- The active-color field of `ChessEngine.toFEN`:
`participants[turn] === 1 ? 'w' : 'b'` — note the direct index, without
the modulo used by `isValidMove`'s turn check. -/
def fenActiveColor (s : ChessGameState) : String :=
  if s.participants.get? s.turn == some 1 then "w" else "b"

/-- The castling field of `ChessEngine.toFEN` (participants 1 and 2
only). -/
def fenCastling (s : ChessGameState) : String :=
  let w := lookupRights s.castlingRights 1
  let b := lookupRights s.castlingRights 2
  let str :=
    (match w with | some r => if r.kingSide then "K" else "" | none => "") ++
    (match w with | some r => if r.queenSide then "Q" else "" | none => "") ++
    (match b with | some r => if r.kingSide then "k" else "" | none => "") ++
    (match b with | some r => if r.queenSide then "q" else "" | none => "")
  if str == "" then "-" else str

/-- The en-passant field of `ChessEngine.toFEN`. -/
def fenEnPassant (s : ChessGameState) : String :=
  match s.enPassantTarget with
  | none => "-"
  | some ep =>
    String.singleton (Char.ofNat (97 + ep.1).toNat) ++
      toString (s.board.height - ep.2)

/-- `ChessEngine.toFEN`: the six space-separated FEN fields (halfmove
clock fixed at 0, fullmove `⌊history / 2⌋ + 1`). -/
def toFEN (s : ChessGameState) : String :=
  String.intercalate "/" (fenRows s) ++ " " ++ fenActiveColor s ++ " " ++
    fenCastling s ++ " " ++ fenEnPassant s ++ " 0 " ++
    toString (s.moveHistory.length / 2 + 1)

/-- `parseInt` on a single character: a digit's value, `NaN` (`none`)
otherwise. -/
def digitVal (c : Char) : Option Nat :=
  if c.isDigit then some (c.toNat - 48) else none

/-- The move produced by `ChessEngine.uciToMove`.  The rank fields are
`Option Int` because the source computes `8 - parseInt(ch)`, which is
`NaN` (`none`) when the character is not a digit. -/
structure UciMove where
  fromX : Int
  fromY : Option Int
  toX : Int
  toY : Option Int
  promotion : Option Nat
  deriving Repr, DecidableEq

/-- `ChessEngine.uciToMove`: strings shorter than 4 characters are
rejected with a descriptive error; rank conversion hardcodes an 8-tall
board (`8 - rank`). -/
def uciToMove (uci : String) : Except String UciMove :=
  if uci.length < 4 then Except.error ("Invalid UCI move: " ++ uci)
  else
    let chars := uci.data
    let fromFile : Int := (chars.getD 0 ' ').toNat - 97
    let toFile : Int := (chars.getD 2 ' ').toNat - 97
    let fromY : Option Int := (digitVal (chars.getD 1 ' ')).map fun d => 8 - d
    let toY : Option Int := (digitVal (chars.getD 3 ' ')).map fun d => 8 - d
    let promo : Option Nat :=
      if 5 ≤ uci.length then
        match (chars.getD 4 ' ').toLower with
        | 'q' => some 7
        | 'r' => some 6
        | 'b' => some 5
        | 'n' => some 8
        | _ => none
      else none
    Except.ok ⟨fromFile, fromY, toFile, toY, promo⟩

/-- `san.replace(/[+#]/g, '')`. -/
def stripCheck (san : String) : String :=
  ⟨san.data.filter fun c => c ≠ '+' ∧ c ≠ '#'⟩

/-- Character class `[a-h]` of the SAN grammar. -/
def isFileChar (c : Char) : Bool := 'a' ≤ c && c ≤ 'h'

/-- Character class `[1-8]` of the SAN grammar. -/
def isRankChar (c : Char) : Bool := '1' ≤ c && c ≤ '8'

/-- Character class `[a-h1-8]` (disambiguation). -/
def isDisambigChar (c : Char) : Bool := isFileChar c || isRankChar c

/-- Character class `[NBRQK]` (piece letter). -/
def isPieceChar (c : Char) : Bool := ['N', 'B', 'R', 'Q', 'K'].contains c

/-- The capture groups of the SAN regex
`^([NBRQK])?([a-h1-8]{1,2})?(x)?([a-h])([1-8])(=[NBRQ])?$`. -/
structure SanParts where
  pieceChar : Option Char
  disambig : List Char
  isCapture : Bool
  targetFile : Char
  targetRankChar : Char
  promo : Option Char
  deriving Repr, DecidableEq

/-- Tail of the regex after the optional groups: `([a-h])([1-8])(=[NBRQ])?$`
(the greedy promotion group prefers to match). -/
def matchTarget : List Char → Option (Char × Char × Option Char)
  | f :: r :: rest =>
    if isFileChar f && isRankChar r then
      match rest with
      | [] => some (f, r, none)
      | ['=', p] => if ['N', 'B', 'R', 'Q'].contains p then some (f, r, some p)
                    else none
      | _ => none
    else none
  | _ => none

/-- `(x)?` then the tail; the greedy optional capture marker is tried
present-first, as the backtracking regex engine does. -/
def matchCapture (l : List Char) : Option (Bool × Char × Char × Option Char) :=
  (match l with
   | 'x' :: rest => (matchTarget rest).map fun t => (true, t)
   | _ => none) <|>
  (matchTarget l).map fun t => (false, t)

/-- `([a-h1-8]{1,2})?` then the rest; the greedy quantifier tries two
characters, then one, then none. -/
def matchDisambig (l : List Char) :
    Option (List Char × Bool × Char × Char × Option Char) :=
  (match l with
   | c1 :: c2 :: rest =>
     if isDisambigChar c1 && isDisambigChar c2 then
       (matchCapture rest).map fun t => ([c1, c2], t)
     else none
   | _ => none) <|>
  (match l with
   | c1 :: rest =>
     if isDisambigChar c1 then (matchCapture rest).map fun t => ([c1], t)
     else none
   | _ => none) <|>
  (matchCapture l).map fun t => ([], t)

/-- The anchored SAN regex match on the cleaned string: group values on
success, `none` when the string does not match the move grammar. -/
def sanMatch (str : String) : Option SanParts :=
  let l := str.data
  (match l with
   | c :: rest =>
     if isPieceChar c then
       (matchDisambig rest).map fun (d, cap, f, r, p) =>
         ⟨some c, d, cap, f, r, p⟩
     else none
   | [] => none) <|>
  (matchDisambig l).map fun (d, cap, f, r, p) => ⟨none, d, cap, f, r, p⟩

/-- `ChessNotation.charToPieceType`: missing letter means pawn. -/
def charToPieceType (c : Option Char) : Nat :=
  match c with
  | none => 9
  | some 'N' => 8
  | some 'B' => 5
  | some 'R' => 6
  | some 'Q' => 7
  | some 'K' => 3
  | some _ => 9

/-- File letter to x index: `charCodeAt(0) - 'a'.charCodeAt(0)`. -/
def fileIdxOf (c : Char) : Int := (c.toNat : Int) - 97

/-- `ChessNotation.findCandidates`: every tile of the fixed 8×8 scan
window holding a piece of the requested type owned by
`participants[turn]` (direct index, no modulo).  The target square
parameters are unused, as in the source. -/
def findCandidates (s : ChessGameState) (pieceType : Nat) (_toX _toY : Int) :
    List ChessBoardTile :=
  let pid := s.participants.get? s.turn
  (List.range 8).flatMap fun yn =>
    (List.range 8).filterMap fun (xn : Nat) =>
      let tile := s.board.getTile (xn : Int) (yn : Int)
      if tile.piece == pieceType &&
          (match pid with
           | some p => tile.owner_identifier == p
           | none => false) then some tile
      else none

/-- The disambiguation filter of `ChessNotation.parseMove`: one
character narrows by file (letters) or rank (digits; a non-digit is
`NaN` and matches nothing), two characters narrow by both. -/
def disambigFilter (d : List Char) (l : List ChessBoardTile) :
    List ChessBoardTile :=
  match d with
  | [] => l
  | [c] =>
    if 97 ≤ c.toNat ∧ c.toNat ≤ 104 then
      l.filter fun t => t.x == some (fileIdxOf c)
    else
      match digitVal c with
      | some r => l.filter fun t => t.y == some (8 - (r : Int))
      | none => l.filter fun _ => false
  | c1 :: c2 :: _ =>
    match digitVal c2 with
    | some r =>
      l.filter fun t =>
        t.x == some (fileIdxOf c1) && t.y == some (8 - (r : Int))
    | none => l.filter fun _ => false

/-- `ChessNotation.parseCastling`: locate the current player's king by
a row-major 8×8 scan (`participants[turn]`, direct index) and build a
±2-file king move. -/
def parseCastling (s : ChessGameState) (san : String) :
    Except String ChessBoardMove :=
  let pid := s.participants.get? s.turn
  let kingTile :=
    ((List.range 8).flatMap fun yn =>
      (List.range 8).map fun (xn : Nat) =>
        s.board.getTile (xn : Int) (yn : Int)).find?
      fun t =>
        t.piece == 3 &&
          (match pid with
           | some p => t.owner_identifier == p
           | none => false)
  match kingTile with
  | none => Except.error "King not found for castling"
  | some kt =>
    let dx : Int := if san == "O-O" then 2 else -2
    Except.ok ⟨kt.x.getD 0, kt.y.getD 0, kt.x.getD 0 + dx, kt.y.getD 0, none⟩

/-- `ChessNotation.parseMove` at attack-scan depth `fuel` (legality
filtering calls `isValidMove`): strip decorations, castling special
case, regex parse, candidate collection, disambiguation, legality
narrowing, then the exactly-one check with its two distinct errors. -/
def parseMove (fuel : Nat) (s : ChessGameState) (san : String) :
    Except String ChessBoardMove :=
  let cleanSan := stripCheck san
  if cleanSan == "O-O" || cleanSan == "O-O-O" then parseCastling s cleanSan
  else
    match sanMatch cleanSan with
    | none => Except.error ("Invalid SAN format: " ++ san)
    | some m =>
      let toX : Int := fileIdxOf m.targetFile
      let targetY : Int := 8 - ((m.targetRankChar.toNat - 48 : Nat) : Int)
      let pieceType := charToPieceType m.pieceChar
      let promo := m.promo.map fun c => charToPieceType (some c)
      let candidates := findCandidates s pieceType toX targetY
      let filtered := disambigFilter m.disambig candidates
      let valid := filtered.filter fun c =>
        isValidMove fuel s (c.x.getD 0) (c.y.getD 0) toX targetY false
      if valid.length == 0 then
        Except.error ("No legal move found for " ++ san)
      else if 1 < valid.length then
        Except.error ("Ambiguous move " ++ san ++ ": found " ++
          toString valid.length ++ " candidates")
      else
        match valid.head? with
        | none =>
          Except.error
            "Logic Error: Selected candidate is undefined or missing coordinates."
        | some sel =>
          match sel.x, sel.y with
          | some sx, some sy => Except.ok ⟨sx, sy, toX, targetY, promo⟩
          | _, _ =>
            Except.error
              "Logic Error: Selected candidate is undefined or missing coordinates."

/-! ## Concrete states used by witnesses and counterexamples -/

/-- Build a flat tile buffer of `n` bytes: `EmptySquare` except the
given index/byte assignments. -/
def mkTiles (n : Nat) (assign : List (Nat × Nat)) : List Nat :=
  (List.range n).map fun i =>
    (((assign.find? fun kv => kv.1 == i).map (·.2)).getD 250)

/-- 8×8 board holding exactly a white rook at a1 = (0,7), a white king
at e1 = (4,7) and a black king at e8 = (4,0). -/
def rookKingsBoard : ChessBoard :=
  ⟨8, 8, mkTiles 64 [(56, (1 <<< 4) ||| 6), (60, (1 <<< 4) ||| 3),
    (4, (2 <<< 4) ||| 3)]⟩

/-- The scenario of the FEN end-to-end claim: the rook-and-kings board,
participant 1 to move, no castling rights, no en-passant target, empty
history. -/
def rookKingsState : ChessGameState :=
  ⟨rookKingsBoard, 0, [1, 2], [⟨1, [1]⟩, ⟨2, [2]⟩], [], none, []⟩

/-- 8×1 strip with a lone owner-1 king at (4,0), full castling rights:
a minimal accepted castling position. -/
def castleStripState : ChessGameState :=
  ⟨⟨8, 1, mkTiles 8 [(4, (1 <<< 4) ||| 3)]⟩, 0, [1], [⟨1, [1]⟩],
    [(1, ⟨true, true⟩)], none, []⟩

/-- 8×1 strip with the rook in the corner as well: a castling move that
finds its rook. -/
def castleRookStripState : ChessGameState :=
  ⟨⟨8, 1, mkTiles 8 [(4, (1 <<< 4) ||| 3), (7, (1 <<< 4) ||| 6)]⟩, 0, [1],
    [⟨1, [1]⟩], [(1, ⟨true, true⟩)], none, []⟩

/-- 1×4 strip with an owner-1 pawn on its home rank (y = height−2 = 2):
a minimal accepted double step. -/
def pawnStripState : ChessGameState :=
  ⟨⟨1, 4, mkTiles 4 [(2, (1 <<< 4) ||| 9)]⟩, 0, [1], [⟨1, [1]⟩], [], none, []⟩

/-- 2×4 board ready for an en-passant capture: white pawn at (0,2),
black pawn at (1,2) that just double-stepped, target square (1,1). -/
def enPassantState : ChessGameState :=
  ⟨⟨2, 4, mkTiles 8 [(4, (1 <<< 4) ||| 9), (5, (2 <<< 4) ||| 9)]⟩, 0, [1, 2],
    [⟨1, [1]⟩, ⟨2, [2]⟩], [], some (1, 1), []⟩

/-- 9×8 board with a single white rook at (8,0): a legal mover outside
the SAN layer's fixed 8×8 candidate scan window. -/
def wideBoardState : ChessGameState :=
  ⟨⟨9, 8, mkTiles 72 [(8, (1 <<< 4) ||| 6)]⟩, 0, [1], [⟨1, [1]⟩], [], none, []⟩

/-- 1×1 empty board with `turn = 2` but only two participants: an
out-of-range turn index. -/
def overTurnState : ChessGameState :=
  ⟨⟨1, 1, [250]⟩, 2, [1, 2], [], [], none, []⟩

/-- Empty 2×2 board for packing round-trip instances. -/
def smallBoard : ChessBoard := ⟨2, 2, [250, 250, 250, 250]⟩

deriving instance DecidableEq for Except

/-! ## Board lemmas -/

theorem isOutOfBounds_eq_false_iff (b : ChessBoard) (x y : Int) :
    b.isOutOfBounds x y = false ↔
      0 ≤ x ∧ x < b.width ∧ 0 ≤ y ∧ y < b.height := by
  simp only [ChessBoard.isOutOfBounds, Bool.or_eq_false_iff,
    decide_eq_false_iff_not, not_lt, not_le]
  omega

theorem idx_lt_length (b : ChessBoard) (x y : Int)
    (hwf : b.tiles.length = (b.width * b.height).toNat)
    (hin : b.isOutOfBounds x y = false) : b.idx x y < b.tiles.length := by
  rw [isOutOfBounds_eq_false_iff] at hin
  obtain ⟨hx0, hxw, hy0, hyh⟩ := hin
  have hw : 0 < b.width := lt_of_le_of_lt hx0 hxw
  have step : y * b.width + x < b.width * b.height := by
    have h1 : y * b.width + x < (y + 1) * b.width := by nlinarith
    have h2 : (y + 1) * b.width ≤ b.height * b.width := by nlinarith
    nlinarith
  have hpos : 0 ≤ y * b.width := mul_nonneg hy0 (le_of_lt hw)
  rw [hwf, ChessBoard.idx]
  omega

theorem idx_inj (b : ChessBoard) (x y x' y' : Int)
    (hin : b.isOutOfBounds x y = false)
    (hin' : b.isOutOfBounds x' y' = false)
    (hne : x ≠ x' ∨ y ≠ y') : b.idx x y ≠ b.idx x' y' := by
  rw [isOutOfBounds_eq_false_iff] at hin hin'
  obtain ⟨hx0, hxw, hy0, hyh⟩ := hin
  obtain ⟨hx0', hxw', hy0', hyh'⟩ := hin'
  have hw : 0 < b.width := lt_of_le_of_lt hx0 hxw
  have hpos : 0 ≤ y * b.width := mul_nonneg hy0 (le_of_lt hw)
  have hpos' : 0 ≤ y' * b.width := mul_nonneg hy0' (le_of_lt hw)
  simp only [ChessBoard.idx]
  intro h
  have h' : y * b.width + x = y' * b.width + x' := by omega
  rcases lt_trichotomy y y' with hy | hy | hy
  · nlinarith
  · subst hy; omega
  · nlinarith

theorem setTile_dims (b : ChessBoard) (x y : Int) (p o : Nat) :
    (b.setTile x y p o).width = b.width ∧
      (b.setTile x y p o).height = b.height ∧
      (b.setTile x y p o).tiles.length = b.tiles.length := by
  unfold ChessBoard.setTile
  split <;> simp

theorem setTile_oob (b : ChessBoard) (x y : Int) (p o : Nat)
    (h : b.isOutOfBounds x y = true) : b.setTile x y p o = b := by
  simp [ChessBoard.setTile, h]

theorem setTile_isOutOfBounds (b : ChessBoard) (x y : Int) (p o : Nat)
    (x' y' : Int) :
    (b.setTile x y p o).isOutOfBounds x' y' = b.isOutOfBounds x' y' := by
  unfold ChessBoard.setTile ChessBoard.isOutOfBounds
  split <;> simp

theorem setTile_inBounds_eq (b : ChessBoard) (x y : Int) (p o : Nat)
    (hin : b.isOutOfBounds x y = false) :
    b.setTile x y p o =
      ⟨b.width, b.height, b.tiles.set (b.idx x y) (packTile p o)⟩ := by
  unfold ChessBoard.setTile
  rw [hin]
  rfl

theorem getTile_setTile_self (b : ChessBoard) (x y : Int) (p o : Nat)
    (hwf : b.tiles.length = (b.width * b.height).toNat)
    (hin : b.isOutOfBounds x y = false) :
    (b.setTile x y p o).getTile x y =
      (if 250 ≤ packTile p o then
        (⟨packTile p o, 0, some x, some y⟩ : ChessBoardTile)
       else ⟨packTile p o &&& 15, (packTile p o >>> 4) &&& 15, some x,
         some y⟩) := by
  have hidx : b.idx x y < b.tiles.length := idx_lt_length b x y hwf hin
  rw [setTile_inBounds_eq b x y p o hin]
  unfold ChessBoard.getTile
  rw [show (⟨b.width, b.height, b.tiles.set (b.idx x y) (packTile p o)⟩ :
      ChessBoard).isOutOfBounds x y = b.isOutOfBounds x y from rfl, hin]
  rw [show (⟨b.width, b.height, b.tiles.set (b.idx x y) (packTile p o)⟩ :
      ChessBoard).tiles.getD ((⟨b.width, b.height,
        b.tiles.set (b.idx x y) (packTile p o)⟩ : ChessBoard).idx x y) 250 =
      (b.tiles.set (b.idx x y) (packTile p o)).getD (b.idx x y) 250 from rfl]
  rw [List.getD_eq_getElem?_getD, List.getElem?_set_eq_of_lt _ hidx]
  rfl

theorem getTile_setTile_ne (b : ChessBoard) (x y x' y' : Int) (p o : Nat)
    (hin' : b.isOutOfBounds x' y' = false)
    (hne : x ≠ x' ∨ y ≠ y') :
    (b.setTile x y p o).getTile x' y' = b.getTile x' y' := by
  by_cases hoob : b.isOutOfBounds x y = true
  · rw [setTile_oob b x y p o hoob]
  · have hin : b.isOutOfBounds x y = false := by
      revert hoob; cases b.isOutOfBounds x y <;> simp
    have hidx : b.idx x y ≠ b.idx x' y' := idx_inj b x y x' y' hin hin' hne
    rw [setTile_inBounds_eq b x y p o hin]
    unfold ChessBoard.getTile
    rw [show (⟨b.width, b.height, b.tiles.set (b.idx x y) (packTile p o)⟩ :
        ChessBoard).isOutOfBounds x' y' = b.isOutOfBounds x' y' from rfl, hin']
    rw [show (⟨b.width, b.height, b.tiles.set (b.idx x y) (packTile p o)⟩ :
        ChessBoard).tiles.getD ((⟨b.width, b.height,
          b.tiles.set (b.idx x y) (packTile p o)⟩ : ChessBoard).idx x' y')
          250 =
        (b.tiles.set (b.idx x y) (packTile p o)).getD (b.idx x' y') 250
        from rfl]
    rw [List.getD_eq_getElem?_getD, List.getD_eq_getElem?_getD,
      List.getElem?_set_ne hidx]

/-- The bit-packing arithmetic: for any owner `≤ 14` and 4-bit piece,
packing then unpacking restores both fields, and the packed byte stays
below the environmental threshold. -/
theorem pack_unpack_bits :
    ∀ o < 15, ∀ p < 16,
      ((o <<< 4) ||| (p &&& 15)) &&& 15 = p ∧
        (((o <<< 4) ||| (p &&& 15)) >>> 4) &&& 15 = o ∧
        ((o <<< 4) ||| (p &&& 15)) < 250 := by decide

theorem getTile_coords (b : ChessBoard) (x y : Int)
    (hin : b.isOutOfBounds x y = false) :
    (b.getTile x y).x = some x ∧ (b.getTile x y).y = some y := by
  unfold ChessBoard.getTile
  rw [hin]
  simp only [Bool.false_eq_true, if_false]
  split <;> simp

theorem getTile_oob (b : ChessBoard) (x y : Int)
    (hout : b.isOutOfBounds x y = true) :
    b.getTile x y = ⟨250, 0, none, none⟩ := by
  simp [ChessBoard.getTile, hout]

theorem getTile_env_owner (b : ChessBoard) (x y : Int)
    (h : 250 ≤ (b.getTile x y).piece) :
    (b.getTile x y).owner_identifier = 0 := by
  by_cases hc : b.isOutOfBounds x y = true
  · simp [ChessBoard.getTile, hc]
  · have hc' : b.isOutOfBounds x y = false := by
      revert hc; cases b.isOutOfBounds x y <;> simp
    simp only [ChessBoard.getTile, hc', Bool.false_eq_true, if_false] at h ⊢
    by_cases h2 : 250 ≤ b.tiles.getD (b.idx x y) 250
    · rw [if_pos h2]
    · exfalso
      simp only [h2, if_false] at h
      have hlt : b.tiles.getD (b.idx x y) 250 &&& 15 < 16 :=
        Nat.lt_of_le_of_lt Nat.and_le_right (by norm_num)
      omega

/-! ## C7 and C8: board access -/

/-- C7: for every playable piece identity (a 4-bit value, i.e. below
the environmental threshold) and every owner 0–14, `setTile` followed
by `getTile` at in-bounds coordinates returns exactly the same
(piece, owner) pair. -/
theorem setTile_getTile_roundtrip (b : ChessBoard) (x y : Int)
    (piece owner : Nat)
    (hwf : b.tiles.length = (b.width * b.height).toNat)
    (hin : b.isOutOfBounds x y = false)
    (hp : piece < 16) (ho : owner ≤ 14) :
    (b.setTile x y piece owner).getTile x y =
      ⟨piece, owner, some x, some y⟩ := by
  have hmin : min owner 14 = owner := min_eq_left ho
  have hpack : packTile piece owner = (owner <<< 4) ||| (piece &&& 15) := by
    unfold packTile
    rw [if_neg (by omega), hmin]
  obtain ⟨hb1, hb2, hb3⟩ := pack_unpack_bits owner (by omega) piece hp
  rw [getTile_setTile_self b x y piece owner hwf hin, hpack,
    if_neg (by omega), hb1, hb2]

/-- Witness for C7 at a concrete board, square, piece and owner. -/
theorem setTile_getTile_roundtrip_witness :
    smallBoard.tiles.length = (smallBoard.width * smallBoard.height).toNat ∧
      smallBoard.isOutOfBounds 1 0 = false ∧ 9 < 16 ∧ 3 ≤ 14 ∧
      (smallBoard.setTile 1 0 9 3).getTile 1 0 = ⟨9, 3, some 1, some 0⟩ :=
  ⟨by decide, by decide, by decide, by decide,
    setTile_getTile_roundtrip smallBoard 1 0 9 3 (by decide) (by decide)
      (by decide) (by decide)⟩

/-- C8: board access is total — an out-of-bounds `getTile` returns the
neutral empty tile (piece `EmptySquare`, owner 0) instead of failing,
and an out-of-bounds `setTile` leaves the board (hence every tile of
it) unchanged. -/
theorem board_access_total (b : ChessBoard) (x y : Int)
    (hout : b.isOutOfBounds x y = true) :
    b.getTile x y = ⟨250, 0, none, none⟩ ∧
      (∀ piece owner, b.setTile x y piece owner = b) ∧
      (∀ piece owner x' y',
        (b.setTile x y piece owner).getTile x' y' = b.getTile x' y') :=
  ⟨getTile_oob b x y hout, fun p o => setTile_oob b x y p o hout,
    fun p o _ _ => by rw [setTile_oob b x y p o hout]⟩

/-! ## Decomposing the legality check -/

/-- An early-`return false` guard in a chain of checks: the chain
succeeds iff the guard fails and the rest succeeds. -/
theorem ite_false_chain {c : Prop} [Decidable c] {x : Bool} :
    (if c then false else x) = true ↔ ¬c ∧ x = true := by
  split <;> simp [*]

/-- `isValidMoveCore` succeeds exactly when every guard of the source's
early-return chain passes: bounds, distinct squares, a real piece, the
turn check (unless disabled), the friendly-fire check, the
piece-specific branch, and the slider path. -/
theorem isValidMoveCore_eq_true_iff
    (cc : ChessBoardTile → Int → Int → Bool) (s : ChessGameState)
    (fx fy tx ty : Int) (ig : Bool) :
    isValidMoveCore cc s fx fy tx ty ig = true ↔
      s.board.isOutOfBounds fx fy = false ∧
      s.board.isOutOfBounds tx ty = false ∧
      ¬(fx = tx ∧ fy = ty) ∧
      (s.board.getTile fx fy).piece ≠ 0 ∧
      (s.board.getTile fx fy).piece < 250 ∧
      (ig = true ∨
        s.participants.get? (s.turn % s.participants.length) =
          some (s.board.getTile fx fy).owner_identifier) ∧
      ((s.board.getTile tx ty).owner_identifier = 0 ∨
        areTeammates s (s.board.getTile fx fy).owner_identifier
          (s.board.getTile tx ty).owner_identifier = false) ∧
      (if (s.board.getTile fx fy).piece == 9 then
        isValidPawnMove s (s.board.getTile fx fy) (s.board.getTile tx ty)
          (tx - fx) (ty - fy) (tx - fx).natAbs (ty - fy).natAbs
       else if (s.board.getTile fx fy).piece == 3 &&
           decide ((tx - fx).natAbs > 1) then
        cc (s.board.getTile fx fy) tx ty
       else
        isKinematicallyValid (s.board.getTile fx fy).piece (tx - fx)
          (ty - fy)) = true ∧
      (if (s.board.getTile fx fy).piece &&& 4 != 0 then
        pathWalk s.board tx ty (stepSign (tx - fx)) (stepSign (ty - fy))
          (max (tx - fx).natAbs (ty - fy).natAbs) (fx + stepSign (tx - fx))
          (fy + stepSign (ty - fy))
       else true) = true := by
  simp only [isValidMoveCore]
  simp only [ite_false_chain]
  simp only [Bool.or_eq_true, not_or, Bool.not_eq_true, Bool.and_eq_true,
    not_and, beq_iff_eq, bne_iff_ne, Bool.not_eq_true', Bool.not_eq_false,
    decide_eq_true_eq, Nat.not_le, ne_eq]
  cases ig <;> simp <;> tauto

theorem isValidMove_zero (s : ChessGameState) (fx fy tx ty : Int)
    (ig : Bool) :
    isValidMove 0 s fx fy tx ty ig =
      isValidMoveCore (fun _ _ _ => false) s fx fy tx ty ig := rfl

theorem isValidMove_succ (n : Nat) (s : ChessGameState) (fx fy tx ty : Int)
    (ig : Bool) :
    isValidMove (n + 1) s fx fy tx ty ig =
      isValidMoveCore
        (fun kingTile toX' toY' =>
          isCastlingValidGiven
            (fun ax ay => isSquareUnderAttack n s ax ay
              kingTile.owner_identifier)
            s kingTile toX' toY')
        s fx fy tx ty ig := rfl

theorem pawnDirection_ne_zero (owner : Nat) : pawnDirection owner ≠ 0 := by
  unfold pawnDirection
  split <;> decide

/-- The shared core of the pawn double-step claim, for an arbitrary
castling oracle. -/
theorem pawn_double_core (cc : ChessBoardTile → Int → Int → Bool)
    (s : ChessGameState) (fx fy tx ty : Int) (ig : Bool)
    (hp : (s.board.getTile fx fy).piece = 9)
    (hdy : ty - fy =
      2 * pawnDirection (s.board.getTile fx fy).owner_identifier)
    (hv : isValidMoveCore cc s fx fy tx ty ig = true) :
    tx = fx ∧
      fy = (if (s.board.getTile fx fy).owner_identifier = 1 then
        s.board.height - 2 else 1) ∧
      tileEmptyPiece ((s.board.getTile fx
        (fy + pawnDirection (s.board.getTile fx fy).owner_identifier)).piece)
        = true ∧
      tileEmptyPiece ((s.board.getTile tx ty).piece) = true := by
  rw [isValidMoveCore_eq_true_iff] at hv
  obtain ⟨hb1, hb2, hne, hp0, hlt, hturn, hteam, hbranch, hslide⟩ := hv
  obtain ⟨hsx, hsy⟩ := getTile_coords s.board fx fy hb1
  have hdne : pawnDirection (s.board.getTile fx fy).owner_identifier ≠ 0 :=
    pawnDirection_ne_zero _
  rw [hp, if_pos (show ((9 : Nat) == 9) = true by decide)] at hbranch
  simp only [isValidPawnMove] at hbranch
  have c1 : ((ty - fy) ==
      pawnDirection (s.board.getTile fx fy).owner_identifier) = false := by
    rw [beq_eq_false_iff_ne]
    omega
  have c2 : ((ty - fy) ==
      pawnDirection (s.board.getTile fx fy).owner_identifier * 2) = true := by
    rw [beq_iff_eq]
    omega
  rw [c1, c2] at hbranch
  by_cases hdx : tx - fx = 0
  · have hdxb : ((tx - fx == 0) && (false || true)) = true := by simp [hdx]
    rw [if_pos hdxb] at hbranch
    simp [ite_false_chain] at hbranch
    obtain ⟨hdest, hrank, hint⟩ := hbranch
    refine ⟨by omega, ?_, ?_, hdest⟩
    · rw [hsy] at hrank
      exact Option.some_inj.mp hrank
    · rw [hsx, hsy] at hint
      simpa using hint
  · rw [if_neg (by simpa using hdx)] at hbranch
    rw [show ((tx - fx).natAbs == 1 && false) = false by simp] at hbranch
    simp at hbranch

/-- C4: a pawn two-square forward move passes `isValidMove` only from
the owner's home rank (`height − 2` for owner 1, rank 1 otherwise) and
only with both the intermediate and the destination square empty; it
is also necessarily a straight move (`toX = fromX`). -/
theorem pawn_double_step_requirements (fuel : Nat) (s : ChessGameState)
    (fx fy tx ty : Int) (ig : Bool)
    (hp : (s.board.getTile fx fy).piece = 9)
    (hdy : ty - fy =
      2 * pawnDirection (s.board.getTile fx fy).owner_identifier)
    (hv : isValidMove fuel s fx fy tx ty ig = true) :
    tx = fx ∧
      fy = (if (s.board.getTile fx fy).owner_identifier = 1 then
        s.board.height - 2 else 1) ∧
      tileEmptyPiece ((s.board.getTile fx
        (fy + pawnDirection (s.board.getTile fx fy).owner_identifier)).piece)
        = true ∧
      tileEmptyPiece ((s.board.getTile tx ty).piece) = true := by
  cases fuel with
  | zero =>
    rw [isValidMove_zero] at hv
    exact pawn_double_core _ s fx fy tx ty ig hp hdy hv
  | succ n =>
    rw [isValidMove_succ] at hv
    exact pawn_double_core _ s fx fy tx ty ig hp hdy hv

/-- Witness for C4: a concrete accepted double step from the home
rank. -/
theorem pawn_double_step_witness :
    (pawnStripState.board.getTile 0 2).piece = 9 ∧
      ((0 : Int) - 2 =
        2 * pawnDirection
          (pawnStripState.board.getTile 0 2).owner_identifier) ∧
      isValidMove 1 pawnStripState 0 2 0 0 false = true ∧
      ((0 : Int) = 0 ∧
        (2 : Int) = (if (pawnStripState.board.getTile 0 2).owner_identifier
          = 1 then pawnStripState.board.height - 2 else 1) ∧
        tileEmptyPiece ((pawnStripState.board.getTile 0
          (2 + pawnDirection
            (pawnStripState.board.getTile 0 2).owner_identifier)).piece)
          = true ∧
        tileEmptyPiece ((pawnStripState.board.getTile 0 0).piece) = true) :=
  ⟨by decide, by decide, by decide,
    pawn_double_step_requirements 1 pawnStripState 0 2 0 0 false (by decide)
      (by decide) (by decide)⟩

theorem castleWalk_visits (b : ChessBoard) (y toX step : Int) :
    ∀ (n : Nat) (x : Int), castleWalk b y toX step n x = true →
      ∀ j : Nat, j < n → (∀ i : Nat, i ≤ j → x + step * (i : Int) ≠ toX) →
        tileEmptyPiece ((b.getTile (x + step * (j : Int)) y).piece) = true := by
  intro n
  induction n with
  | zero => intro x h j hj; omega
  | succ m ih =>
    intro x h j hj hne
    have hx : x ≠ toX := by
      have h0 := hne 0 (by omega)
      simpa using h0
    rw [castleWalk, if_neg (by simpa using hx)] at h
    rw [ite_false_chain] at h
    obtain ⟨hemp, hrest⟩ := h
    have hemp' : tileEmptyPiece ((b.getTile x y).piece) = true := by
      simpa using hemp
    cases j with
    | zero => simpa using hemp'
    | succ k =>
      have hprem : ∀ i : Nat, i ≤ k → (x + step) + step * (i : Int) ≠ toX := by
        intro i hi hcontra
        apply hne (i + 1) (by omega)
        push_cast
        linarith
      have hrec := ih (x + step) hrest k (by omega) hprem
      have hcoord : (x + step) + step * (k : Int) =
          x + step * ((k : Nat) + 1 : Int) := by
        ring
      rw [hcoord] at hrec
      convert hrec using 4

/-- C1: whenever `isValidMove` accepts a king move of horizontal
magnitude greater than 1 (a castling attempt), the mover's recorded
right for the requested side is set, every square strictly between the
king and its destination is empty, and none of the start square, the
crossed square, and the destination square is reported attacked by
`isSquareUnderAttack` (at the next attack-scan depth down). -/
theorem castling_acceptance_requirements (n : Nat) (s : ChessGameState)
    (fx fy tx ty : Int) (ig : Bool)
    (hk : (s.board.getTile fx fy).piece = 3)
    (hdx : 1 < (tx - fx).natAbs)
    (hv : isValidMove (n + 1) s fx fy tx ty ig = true) :
    (∃ r, lookupRights s.castlingRights
        (s.board.getTile fx fy).owner_identifier = some r ∧
      (fx < tx → r.kingSide = true) ∧ (tx < fx → r.queenSide = true)) ∧
    (∀ k : Nat, 1 ≤ k → k < (tx - fx).natAbs →
      tileEmptyPiece ((s.board.getTile
        (fx + (if fx < tx then (1 : Int) else -1) * (k : Int)) fy).piece)
        = true) ∧
    isSquareUnderAttack n s fx fy
      (s.board.getTile fx fy).owner_identifier = false ∧
    isSquareUnderAttack n s (fx + (if fx < tx then (1 : Int) else -1)) fy
      (s.board.getTile fx fy).owner_identifier = false ∧
    isSquareUnderAttack n s tx ty
      (s.board.getTile fx fy).owner_identifier = false := by
  rw [isValidMove_succ] at hv
  rw [isValidMoveCore_eq_true_iff] at hv
  obtain ⟨hb1, hb2, _, _, _, _, _, hbranch, _⟩ := hv
  obtain ⟨hsx, hsy⟩ := getTile_coords s.board fx fy hb1
  rw [hk] at hbranch
  rw [if_neg (by decide : ¬(((3 : Nat) == 9) = true))] at hbranch
  rw [if_pos (show (((3 : Nat) == 3) && decide ((tx - fx).natAbs > 1)) = true
    by simp [hdx])] at hbranch
  cases hlr : lookupRights s.castlingRights
      (s.board.getTile fx fy).owner_identifier with
  | none =>
    unfold isCastlingValidGiven at hbranch
    rw [hlr] at hbranch
    simp at hbranch
  | some r =>
    unfold isCastlingValidGiven at hbranch
    rw [hlr, hsx, hsy] at hbranch
    simp only [Option.getD_some] at hbranch
    simp [ite_false_chain] at hbranch
    obtain ⟨hks, hqs, hwalk, ha1, ha2, ha3⟩ := hbranch
    refine ⟨⟨r, rfl, ?_, ?_⟩, ?_, ha1, ha2, ha3⟩
    · intro h
      rcases hks with h' | h'
      · omega
      · exact h'
    · intro h
      rcases hqs with h' | h'
      · omega
      · exact h'
    · intro k hk1 hk2
      have hstep : (if fx < tx then (1 : Int) else -1) = 1 ∨
          (if fx < tx then (1 : Int) else -1) = -1 := by
        split <;> simp
      have hprem : ∀ i : Nat, i ≤ k - 1 →
          (fx + (if fx < tx then (1 : Int) else -1)) +
            (if fx < tx then (1 : Int) else -1) * (i : Int) ≠ tx := by
        intro i hi hcontra
        rcases hstep with h1 | h1 <;> rw [h1] at hcontra <;> omega
      have hres := castleWalk_visits s.board fy tx
        (if fx < tx then (1 : Int) else -1) ((tx - fx).natAbs)
        (fx + (if fx < tx then (1 : Int) else -1)) hwalk (k - 1) (by omega)
        hprem
      have hcoord : (fx + (if fx < tx then (1 : Int) else -1)) +
          (if fx < tx then (1 : Int) else -1) * ((k - 1 : Nat) : Int) =
          fx + (if fx < tx then (1 : Int) else -1) * (k : Int) := by
        have hc : ((k - 1 : Nat) : Int) = (k : Int) - 1 := by omega
        rw [hc]
        ring
      rw [hcoord] at hres
      exact hres

/-- Witness for C1: a concrete accepted king-side castling on the
8×1 strip. -/
theorem castling_acceptance_requirements_witness :
    (castleStripState.board.getTile 4 0).piece = 3 ∧
      1 < ((6 : Int) - 4).natAbs ∧
      isValidMove 1 castleStripState 4 0 6 0 false = true ∧
      ((∃ r, lookupRights castleStripState.castlingRights
          (castleStripState.board.getTile 4 0).owner_identifier = some r ∧
        ((4 : Int) < 6 → r.kingSide = true) ∧
        ((6 : Int) < 4 → r.queenSide = true)) ∧
      (∀ k : Nat, 1 ≤ k → k < ((6 : Int) - 4).natAbs →
        tileEmptyPiece ((castleStripState.board.getTile
          (4 + (if (4 : Int) < 6 then (1 : Int) else -1) * (k : Int))
          0).piece) = true) ∧
      isSquareUnderAttack 0 castleStripState 4 0
        (castleStripState.board.getTile 4 0).owner_identifier = false ∧
      isSquareUnderAttack 0 castleStripState
        (4 + (if (4 : Int) < 6 then (1 : Int) else -1)) 0
        (castleStripState.board.getTile 4 0).owner_identifier = false ∧
      isSquareUnderAttack 0 castleStripState 6 0
        (castleStripState.board.getTile 4 0).owner_identifier = false) :=
  ⟨by decide, by decide, by decide,
    castling_acceptance_requirements 0 castleStripState 4 0 6 0 false
      (by decide) (by decide) (by decide)⟩

/-! ## C3: the en-passant lifecycle -/

/-- What `applyMove` writes on the board during an en-passant capture:
remove the passed pawn, place the capturer, clear the source. -/
theorem applyMove_enPassant_board_eq (s : ChessGameState)
    (fx fy tx ty : Int) (o : Nat)
    (hst : s.board.getTile fx fy = ⟨9, o, some fx, some fy⟩)
    (hdest : (s.board.getTile tx ty).piece = 250)
    (hdx : (tx - fx).natAbs = 1) :
    (applyMove s ⟨fx, fy, tx, ty, none⟩).board =
      ((s.board.setTile tx (ty - pawnDirection o) 250 0).setTile tx ty 9
        o).setTile fx fy 250 0 := by
  simp only [applyMove, ChessBoard.clone]
  rw [hst]
  simp only [hdx, hdest]
  norm_num [tileEmptyPiece]

/-- Acceptance of the en-passant capture by the legality core: a pawn
one file sideways in its forward direction onto the empty registered
target square, on the owner's turn, is accepted. -/
theorem enPassant_accept_core (cc : ChessBoardTile → Int → Int → Bool)
    (s : ChessGameState) (fx fy tx ty : Int) (o : Nat)
    (hb1 : s.board.isOutOfBounds fx fy = false)
    (hb2 : s.board.isOutOfBounds tx ty = false)
    (hst : s.board.getTile fx fy = ⟨9, o, some fx, some fy⟩)
    (hdest : (s.board.getTile tx ty).piece = 250)
    (hep : s.enPassantTarget = some (tx, ty))
    (hdx : (tx - fx).natAbs = 1)
    (hdy : ty = fy + pawnDirection o)
    (hturn : s.participants.get? (s.turn % s.participants.length) = some o) :
    isValidMoveCore cc s fx fy tx ty false = true := by
  rw [isValidMoveCore_eq_true_iff]
  have hdowner : (s.board.getTile tx ty).owner_identifier = 0 :=
    getTile_env_owner _ _ _ (by rw [hdest])
  obtain ⟨hex, hey⟩ := getTile_coords s.board tx ty hb2
  have hdir := pawnDirection_ne_zero o
  have hdyd : ty - fy = pawnDirection o := by omega
  have hdx0 : tx - fx ≠ 0 := by omega
  refine ⟨hb1, hb2, ?_, ?_, ?_, ?_, ?_, ?_, ?_⟩
  · rintro ⟨h1, h2⟩
    omega
  · rw [hst]
    norm_num
  · rw [hst]
    norm_num
  · right
    rw [hst]
    exact hturn
  · left
    exact hdowner
  · rw [hst, if_pos (by decide : (((9 : Nat) == 9)) = true)]
    simp only [isValidPawnMove]
    rw [if_neg (by simp [hdx0])]
    rw [if_pos (by simp [hdx, hdyd])]
    rw [if_neg (by simp [hdest, tileEmptyPiece])]
    rw [hep, hex, hey]
    simp
  · rw [hst]
    rw [if_neg (by decide : ¬(((9 : Nat) &&& 4 != 0) = true))]

/-- C3: `applyMove` sets the resulting en-passant target to the square
passed over exactly on a pawn two-rank move and clears it otherwise;
while a target is set, the adjacent enemy pawn's diagonal move onto it
passes `isValidMove`, and applying that move leaves the capturing pawn
on the target square and empties the square directly behind it (where
the double-stepped pawn stood). -/
theorem enPassant_lifecycle (fuel : Nat) (s : ChessGameState)
    (fx fy tx ty : Int) (o : Nat)
    (hwf : s.board.tiles.length = (s.board.width * s.board.height).toNat)
    (hb1 : s.board.isOutOfBounds fx fy = false)
    (hb2 : s.board.isOutOfBounds tx ty = false)
    (hst : s.board.getTile fx fy = ⟨9, o, some fx, some fy⟩)
    (hdest : (s.board.getTile tx ty).piece = 250)
    (hep : s.enPassantTarget = some (tx, ty))
    (hdx : (tx - fx).natAbs = 1)
    (hdy : ty = fy + pawnDirection o)
    (hturn : s.participants.get? (s.turn % s.participants.length) = some o)
    (ho : o ≤ 14) :
    (∀ (s' : ChessGameState) (m' : ChessBoardMove),
      (applyMove s' m').enPassantTarget =
        if (s'.board.getTile m'.fromX m'.fromY).piece = 9 ∧
            (m'.toY - m'.fromY).natAbs = 2 then
          some (m'.fromX, (m'.fromY + m'.toY) / 2)
        else none) ∧
    isValidMove fuel s fx fy tx ty false = true ∧
    (applyMove s ⟨fx, fy, tx, ty, none⟩).board.getTile tx
      (ty - pawnDirection o) =
      ⟨250, 0, some tx, some (ty - pawnDirection o)⟩ ∧
    (applyMove s ⟨fx, fy, tx, ty, none⟩).board.getTile tx ty =
      ⟨9, o, some tx, some ty⟩ := by
  have hdir := pawnDirection_ne_zero o
  have hyd : ty - pawnDirection o = fy := by omega
  have hfx : tx ≠ fx := by omega
  obtain ⟨hx0, hxw, _, _⟩ := (isOutOfBounds_eq_false_iff _ _ _).mp hb2
  obtain ⟨_, _, hy0, hyh⟩ := (isOutOfBounds_eq_false_iff _ _ _).mp hb1
  have hinmid : s.board.isOutOfBounds tx fy = false := by
    rw [isOutOfBounds_eq_false_iff]
    exact ⟨hx0, hxw, hy0, hyh⟩
  have hboard := applyMove_enPassant_board_eq s fx fy tx ty o hst hdest hdx
  refine ⟨?_, ?_, ?_, ?_⟩
  · intro s' m'
    have hB : (applyMove s' m').enPassantTarget =
        if ((s'.board.getTile m'.fromX m'.fromY).piece == 9 &&
            ((m'.toY - m'.fromY).natAbs == 2)) = true then
          some (m'.fromX, (m'.fromY + m'.toY) / 2)
        else none := rfl
    rw [hB]
    by_cases hc : (s'.board.getTile m'.fromX m'.fromY).piece = 9 ∧
        (m'.toY - m'.fromY).natAbs = 2
    · rw [if_pos (by simp [hc.1, hc.2]), if_pos hc]
    · rw [if_neg (by simpa using hc), if_neg hc]
  · cases fuel with
    | zero =>
      rw [isValidMove_zero]
      exact enPassant_accept_core _ s fx fy tx ty o hb1 hb2 hst hdest hep
        hdx hdy hturn
    | succ n =>
      rw [isValidMove_succ]
      exact enPassant_accept_core _ s fx fy tx ty o hb1 hb2 hst hdest hep
        hdx hdy hturn
  · rw [hboard, hyd]
    rw [getTile_setTile_ne _ fx fy tx fy 250 0
      (by rw [setTile_isOutOfBounds, setTile_isOutOfBounds]; exact hinmid)
      (Or.inl (Ne.symm hfx))]
    rw [getTile_setTile_ne _ tx ty tx fy 9 o
      (by rw [setTile_isOutOfBounds]; exact hinmid)
      (Or.inr (by omega))]
    rw [getTile_setTile_self s.board tx fy 250 0 hwf hinmid]
    rw [if_pos (by decide : (250 : Nat) ≤ packTile 250 0)]
    rfl
  · rw [hboard]
    rw [getTile_setTile_ne _ fx fy tx ty 250 0
      (by rw [setTile_isOutOfBounds, setTile_isOutOfBounds]; exact hb2)
      (Or.inl (Ne.symm hfx))]
    have hwf1 : (s.board.setTile tx (ty - pawnDirection o) 250 0).tiles.length
        = ((s.board.setTile tx (ty - pawnDirection o) 250 0).width *
          (s.board.setTile tx (ty - pawnDirection o) 250 0).height).toNat := by
      obtain ⟨d1, d2, d3⟩ := setTile_dims s.board tx (ty - pawnDirection o)
        250 0
      rw [d1, d2, d3, hwf]
    rw [getTile_setTile_self _ tx ty 9 o hwf1
      (by rw [setTile_isOutOfBounds]; exact hb2)]
    obtain ⟨hu1, hu2, hu3⟩ := pack_unpack_bits o (by omega) 9 (by norm_num)
    have hpk : packTile 9 o = (o <<< 4) ||| (9 &&& 15) := by
      unfold packTile
      rw [if_neg (by omega), min_eq_left ho]
    rw [hpk, if_neg (by omega), hu1, hu2]

/-- Witness for C3: the concrete 2×4 en-passant scenario. -/
theorem enPassant_lifecycle_witness :
    (enPassantState.board.tiles.length =
      (enPassantState.board.width * enPassantState.board.height).toNat) ∧
    enPassantState.board.isOutOfBounds 0 2 = false ∧
    enPassantState.board.isOutOfBounds 1 1 = false ∧
    enPassantState.board.getTile 0 2 = ⟨9, 1, some 0, some 2⟩ ∧
    (enPassantState.board.getTile 1 1).piece = 250 ∧
    enPassantState.enPassantTarget = some (1, 1) ∧
    ((1 : Int) - 0).natAbs = 1 ∧
    (1 : Int) = 2 + pawnDirection 1 ∧
    enPassantState.participants.get?
      (enPassantState.turn % enPassantState.participants.length) = some 1 ∧
    (1 : Nat) ≤ 14 ∧
    ((∀ (s' : ChessGameState) (m' : ChessBoardMove),
      (applyMove s' m').enPassantTarget =
        if (s'.board.getTile m'.fromX m'.fromY).piece = 9 ∧
            (m'.toY - m'.fromY).natAbs = 2 then
          some (m'.fromX, (m'.fromY + m'.toY) / 2)
        else none) ∧
    isValidMove 1 enPassantState 0 2 1 1 false = true ∧
    (applyMove enPassantState ⟨0, 2, 1, 1, none⟩).board.getTile 1
      (1 - pawnDirection 1) = ⟨250, 0, some 1, some (1 - pawnDirection 1)⟩ ∧
    (applyMove enPassantState ⟨0, 2, 1, 1, none⟩).board.getTile 1 1 =
      ⟨9, 1, some 1, some 1⟩) :=
  ⟨by decide, by decide, by decide, by decide, by decide, by decide,
    by decide, by decide, by decide, by decide,
    enPassant_lifecycle 1 enPassantState 0 2 1 1 1 (by decide) (by decide)
      (by decide) (by decide) (by decide) (by decide) (by decide) (by decide)
      (by decide) (by decide)⟩

/-! ## C10: castling rook relocation in applyMove -/

/-- Exact description of the rook-finding scan: it advances while the
tiles are `EmptySquare` and in bounds, and (when fuel remains) stops on
the first tile that is not, reporting how far it went. -/
theorem rookScan_steps (b : ChessBoard) (y step : Int) :
    ∀ (fuel : Nat) (x0 : Int), ∃ k : Nat, k ≤ fuel ∧
      rookScan b y step fuel x0 = x0 + step * (k : Int) ∧
      (∀ j : Nat, j < k → (b.getTile (x0 + step * (j : Int)) y).piece = 250 ∧
        b.isOutOfBounds (x0 + step * (j : Int)) y = false) ∧
      (k < fuel → ((b.getTile (x0 + step * (k : Int)) y).piece ≠ 250 ∨
        b.isOutOfBounds (x0 + step * (k : Int)) y = true)) := by
  intro fuel
  induction fuel with
  | zero =>
    intro x0
    refine ⟨0, le_refl 0, by simp [rookScan], ?_, ?_⟩
    · intro j hj
      exact absurd hj (by omega)
    · intro h
      exact absurd h (by omega)
  | succ m ih =>
    intro x0
    by_cases hc : ((b.getTile x0 y).piece == 250 && !b.isOutOfBounds x0 y)
      = true
    · obtain ⟨k, hk, heq, hcont, hstop⟩ := ih (x0 + step)
      have hc' : (b.getTile x0 y).piece = 250 ∧ b.isOutOfBounds x0 y = false
        := by simpa [Bool.and_eq_true] using hc
      refine ⟨k + 1, by omega, ?_, ?_, ?_⟩
      · rw [rookScan, if_pos hc, heq]
        push_cast
        ring
      · intro j hj
        cases j with
        | zero => simpa using hc'
        | succ i =>
          have hco : x0 + step * ((i + 1 : Nat) : Int) =
              (x0 + step) + step * (i : Int) := by push_cast; ring
          rw [hco]
          exact hcont i (by omega)
      · intro hlt
        have hco : x0 + step * ((k + 1 : Nat) : Int) =
            (x0 + step) + step * (k : Int) := by push_cast; ring
        rw [hco]
        exact hstop (by omega)
    · refine ⟨0, by omega, ?_, ?_, ?_⟩
      · rw [rookScan, if_neg hc]
        simp
      · intro j hj
        exact absurd hj (by omega)
      · intro _
        have hx0eq : x0 + step * ((0 : Nat) : Int) = x0 := by push_cast; ring
        rw [hx0eq]
        by_cases hp : (b.getTile x0 y).piece = 250
        · right
          simp only [Bool.and_eq_true, beq_iff_eq, Bool.not_eq_true'] at hc
          rcases Bool.eq_false_or_eq_true (b.isOutOfBounds x0 y) with h | h
          · exact h
          · exact absurd ⟨hp, h⟩ hc
        · left
          exact hp

/-- The board produced by `applyMove` for a castling king move when
the scan finds a rook: rook relocated inward, king moved, source
cleared. -/
theorem applyMove_castle_board_rook (s : ChessGameState) (m : ChessBoardMove)
    (hk : (s.board.getTile m.fromX m.fromY).piece = 3)
    (hdx : 1 < (m.toX - m.fromX).natAbs)
    (hrook : (s.board.getTile (rookScan s.board m.fromY
      (if m.fromX < m.toX then (1 : Int) else -1)
      (s.board.width.toNat + 1)
      (m.toX + (if m.fromX < m.toX then (1 : Int) else -1)))
      m.fromY).piece = 6) :
    (applyMove s m).board =
      (((s.board.setTile
          (if m.fromX < m.toX then m.toX - 1 else m.toX + 1) m.fromY 6
          (s.board.getTile m.fromX m.fromY).owner_identifier).setTile
        (rookScan s.board m.fromY
          (if m.fromX < m.toX then (1 : Int) else -1)
          (s.board.width.toNat + 1)
          (m.toX + (if m.fromX < m.toX then (1 : Int) else -1)))
        m.fromY 250 0).setTile m.toX m.toY 3
        (s.board.getTile m.fromX m.fromY).owner_identifier).setTile
        m.fromX m.fromY 250 0 := by
  cases m with
  | mk fromX fromY toX toY promotion =>
    cases promotion <;>
      (simp only [applyMove, ChessBoard.clone]
       simp_all [hk, hdx])

/-- The board produced by `applyMove` for a castling king move when
the scan does not find a rook (board edge, or some other piece): only
the king is relocated, silently. -/
theorem applyMove_castle_board_norook (s : ChessGameState)
    (m : ChessBoardMove)
    (hk : (s.board.getTile m.fromX m.fromY).piece = 3)
    (hdx : 1 < (m.toX - m.fromX).natAbs)
    (hrook : (s.board.getTile (rookScan s.board m.fromY
      (if m.fromX < m.toX then (1 : Int) else -1)
      (s.board.width.toNat + 1)
      (m.toX + (if m.fromX < m.toX then (1 : Int) else -1)))
      m.fromY).piece ≠ 6) :
    (applyMove s m).board =
      (s.board.setTile m.toX m.toY 3
        (s.board.getTile m.fromX m.fromY).owner_identifier).setTile
        m.fromX m.fromY 250 0 := by
  cases m with
  | mk fromX fromY toX toY promotion =>
    cases promotion <;>
      (simp only [applyMove, ChessBoard.clone]
       simp_all [hk, hdx])

/-- C10: for a castling king move, `applyMove` scans outward from the
king's destination; every tile the scan passes is `EmptySquare` and in
bounds, the scan stops on a tile that is not (or off the board), and
the rook relocation happens exactly when the stop tile holds a rook —
otherwise only the king is relocated and no error is raised. -/
theorem applyMove_castle_rook_scan (s : ChessGameState) (m : ChessBoardMove)
    (hk : (s.board.getTile m.fromX m.fromY).piece = 3)
    (hdx : 1 < (m.toX - m.fromX).natAbs) :
    (∃ k : Nat,
      rookScan s.board m.fromY (if m.fromX < m.toX then (1 : Int) else -1)
        (s.board.width.toNat + 1)
        (m.toX + (if m.fromX < m.toX then (1 : Int) else -1)) =
        (m.toX + (if m.fromX < m.toX then (1 : Int) else -1)) +
          (if m.fromX < m.toX then (1 : Int) else -1) * (k : Int) ∧
      (∀ j : Nat, j < k →
        (s.board.getTile
          ((m.toX + (if m.fromX < m.toX then (1 : Int) else -1)) +
            (if m.fromX < m.toX then (1 : Int) else -1) * (j : Int))
          m.fromY).piece = 250 ∧
        s.board.isOutOfBounds
          ((m.toX + (if m.fromX < m.toX then (1 : Int) else -1)) +
            (if m.fromX < m.toX then (1 : Int) else -1) * (j : Int))
          m.fromY = false)) ∧
    ((s.board.getTile (rookScan s.board m.fromY
        (if m.fromX < m.toX then (1 : Int) else -1)
        (s.board.width.toNat + 1)
        (m.toX + (if m.fromX < m.toX then (1 : Int) else -1)))
        m.fromY).piece ≠ 250 ∨
      s.board.isOutOfBounds (rookScan s.board m.fromY
        (if m.fromX < m.toX then (1 : Int) else -1)
        (s.board.width.toNat + 1)
        (m.toX + (if m.fromX < m.toX then (1 : Int) else -1)))
        m.fromY = true) ∧
    ((s.board.getTile (rookScan s.board m.fromY
        (if m.fromX < m.toX then (1 : Int) else -1)
        (s.board.width.toNat + 1)
        (m.toX + (if m.fromX < m.toX then (1 : Int) else -1)))
        m.fromY).piece = 6 →
      (applyMove s m).board =
        (((s.board.setTile
            (if m.fromX < m.toX then m.toX - 1 else m.toX + 1) m.fromY 6
            (s.board.getTile m.fromX m.fromY).owner_identifier).setTile
          (rookScan s.board m.fromY
            (if m.fromX < m.toX then (1 : Int) else -1)
            (s.board.width.toNat + 1)
            (m.toX + (if m.fromX < m.toX then (1 : Int) else -1)))
          m.fromY 250 0).setTile m.toX m.toY 3
          (s.board.getTile m.fromX m.fromY).owner_identifier).setTile
          m.fromX m.fromY 250 0) ∧
    ((s.board.getTile (rookScan s.board m.fromY
        (if m.fromX < m.toX then (1 : Int) else -1)
        (s.board.width.toNat + 1)
        (m.toX + (if m.fromX < m.toX then (1 : Int) else -1)))
        m.fromY).piece ≠ 6 →
      (applyMove s m).board =
        (s.board.setTile m.toX m.toY 3
          (s.board.getTile m.fromX m.fromY).owner_identifier).setTile
          m.fromX m.fromY 250 0) := by
  obtain ⟨k, hk_le, heq, hcont, hstop⟩ :=
    rookScan_steps s.board m.fromY
      (if m.fromX < m.toX then (1 : Int) else -1) (s.board.width.toNat + 1)
      (m.toX + (if m.fromX < m.toX then (1 : Int) else -1))
  have hstepv : (if m.fromX < m.toX then (1 : Int) else -1) = 1 ∨
      (if m.fromX < m.toX then (1 : Int) else -1) = -1 := by
    split <;> simp
  have hklt : k < s.board.width.toNat + 1 := by
    by_contra hge
    have h0 := hcont 0 (by omega)
    have hin0 := (isOutOfBounds_eq_false_iff _ _ _).mp h0.2
    obtain ⟨ha, hb, -, -⟩ := hin0
    have hj := hcont (s.board.width.toNat) (by omega)
    have hinw := (isOutOfBounds_eq_false_iff _ _ _).mp hj.2
    obtain ⟨hc1, hc2, -, -⟩ := hinw
    have hwpos : (0 : Int) < s.board.width := by
      rcases hstepv with h1 | h1 <;> rw [h1] at ha hb <;> omega
    have hcast : ((s.board.width.toNat : Int)) = s.board.width := by omega
    rcases hstepv with h1 | h1 <;>
      rw [h1] at ha hb hc1 hc2 <;> simp at hc1 hc2 <;> omega
  have hstop' := hstop hklt
  rw [← heq] at hstop'
  exact ⟨⟨k, heq, hcont⟩, hstop',
    fun hrook => applyMove_castle_board_rook s m hk hdx hrook,
    fun hrook => applyMove_castle_board_norook s m hk hdx hrook⟩

/-- Witness for C10: a concrete king-side castling with the rook in
the corner of the 8×1 strip. -/
theorem applyMove_castle_rook_scan_witness :
    (castleRookStripState.board.getTile 4 0).piece = 3 ∧
      1 < ((6 : Int) - 4).natAbs ∧
      ((∃ k : Nat,
        rookScan castleRookStripState.board 0
          (if (4 : Int) < 6 then (1 : Int) else -1)
          (castleRookStripState.board.width.toNat + 1)
          (6 + (if (4 : Int) < 6 then (1 : Int) else -1)) =
          (6 + (if (4 : Int) < 6 then (1 : Int) else -1)) +
            (if (4 : Int) < 6 then (1 : Int) else -1) * (k : Int) ∧
        (∀ j : Nat, j < k →
          (castleRookStripState.board.getTile
            ((6 + (if (4 : Int) < 6 then (1 : Int) else -1)) +
              (if (4 : Int) < 6 then (1 : Int) else -1) * (j : Int))
            0).piece = 250 ∧
          castleRookStripState.board.isOutOfBounds
            ((6 + (if (4 : Int) < 6 then (1 : Int) else -1)) +
              (if (4 : Int) < 6 then (1 : Int) else -1) * (j : Int))
            0 = false)) ∧
      ((castleRookStripState.board.getTile
          (rookScan castleRookStripState.board 0
            (if (4 : Int) < 6 then (1 : Int) else -1)
            (castleRookStripState.board.width.toNat + 1)
            (6 + (if (4 : Int) < 6 then (1 : Int) else -1))) 0).piece ≠ 250 ∨
        castleRookStripState.board.isOutOfBounds
          (rookScan castleRookStripState.board 0
            (if (4 : Int) < 6 then (1 : Int) else -1)
            (castleRookStripState.board.width.toNat + 1)
            (6 + (if (4 : Int) < 6 then (1 : Int) else -1))) 0 = true) ∧
      ((castleRookStripState.board.getTile
          (rookScan castleRookStripState.board 0
            (if (4 : Int) < 6 then (1 : Int) else -1)
            (castleRookStripState.board.width.toNat + 1)
            (6 + (if (4 : Int) < 6 then (1 : Int) else -1))) 0).piece = 6 →
        (applyMove castleRookStripState ⟨4, 0, 6, 0, none⟩).board =
          (((castleRookStripState.board.setTile
              (if (4 : Int) < 6 then (6 : Int) - 1 else 6 + 1) 0 6
              (castleRookStripState.board.getTile 4 0).owner_identifier
              ).setTile
            (rookScan castleRookStripState.board 0
              (if (4 : Int) < 6 then (1 : Int) else -1)
              (castleRookStripState.board.width.toNat + 1)
              (6 + (if (4 : Int) < 6 then (1 : Int) else -1))) 0 250
            0).setTile 6 0 3
            (castleRookStripState.board.getTile 4 0).owner_identifier
            ).setTile 4 0 250 0) ∧
      ((castleRookStripState.board.getTile
          (rookScan castleRookStripState.board 0
            (if (4 : Int) < 6 then (1 : Int) else -1)
            (castleRookStripState.board.width.toNat + 1)
            (6 + (if (4 : Int) < 6 then (1 : Int) else -1))) 0).piece ≠ 6 →
        (applyMove castleRookStripState ⟨4, 0, 6, 0, none⟩).board =
          (castleRookStripState.board.setTile 6 0 3
            (castleRookStripState.board.getTile 4 0).owner_identifier
            ).setTile 4 0 250 0)) :=
  ⟨by decide, by decide,
    applyMove_castle_rook_scan castleRookStripState ⟨4, 0, 6, 0, none⟩
      (by decide) (by decide)⟩

/-! ## C5: the rook-and-kings FEN scenario -/

/-- C5 (amended): on the 8×8 position with a white rook at a1, white
king at e1 and black king at e8 (participant 1 to move, no rights, no
target, empty history), `toFEN` returns exactly
`4k3/8/8/8/8/8/8/R3K3 w - - 0 1` — the last row carries the rook. -/
theorem toFEN_rookKings :
    toFEN rookKingsState = "4k3/8/8/8/8/8/8/R3K3 w - - 0 1" := by decide

/-- Counterexample to C5 as stated: on that position `toFEN` does not
return `4k3/8/8/8/8/8/8/4K3 w - - 0 1` (that string has no rook). -/
theorem toFEN_rookKings_counterexample :
    ¬(toFEN rookKingsState = "4k3/8/8/8/8/8/8/4K3 w - - 0 1") := by decide

/-! ## C9: malformed input is rejected, never coerced -/

/-- C9: a SAN string that is neither a castling form nor a match of the
move grammar makes `parseMove` fail immediately with a descriptive
error, and a UCI string of invalid length (shorter than 4) makes
`uciToMove` fail immediately with a descriptive error. -/
theorem malformed_input_rejected :
    (∀ (fuel : Nat) (s : ChessGameState) (san : String),
      stripCheck san ≠ "O-O" → stripCheck san ≠ "O-O-O" →
      sanMatch (stripCheck san) = none →
      parseMove fuel s san = Except.error ("Invalid SAN format: " ++ san)) ∧
    (∀ uci : String, uci.length < 4 →
      uciToMove uci = Except.error ("Invalid UCI move: " ++ uci)) := by
  constructor
  · intro fuel s san h1 h2 h3
    unfold parseMove
    rw [if_neg (by simp [h1, h2])]
    rw [h3]
  · intro uci h
    unfold uciToMove
    rw [if_pos h]

/-- Witness for C9: the SAN garbage `zzz` and the short UCI `e2`. -/
theorem malformed_input_rejected_witness :
    (stripCheck "zzz" ≠ "O-O") ∧ (stripCheck "zzz" ≠ "O-O-O") ∧
      sanMatch (stripCheck "zzz") = none ∧
      parseMove 0 overTurnState "zzz" =
        Except.error ("Invalid SAN format: " ++ "zzz") ∧
      ("e2".length < 4) ∧
      uciToMove "e2" = Except.error ("Invalid UCI move: " ++ "e2") :=
  ⟨by decide, by decide, by decide,
    malformed_input_rejected.1 0 overTurnState "zzz" (by decide) (by decide)
      (by decide),
    by decide, malformed_input_rejected.2 "e2" (by decide)⟩

/-! ## C6: where the turn is (and is not) taken modulo -/

/-- Counterexample to C6 as stated: with `turn = 2` over two
participants, `participants[turn mod count]` is participant 1 (whom
`toFEN` renders as active color `w`), yet `toFEN` renders `b` because
its active-color field indexes `participants[turn]` directly. -/
theorem turn_modulo_counterexample :
    fenActiveColor overTurnState = "b" ∧
      fenActiveColor {overTurnState with turn :=
        overTurnState.turn % overTurnState.participants.length} = "w" ∧
      toFEN overTurnState = "1 b - - 0 1" := by decide

theorem attackScan_modTurn (s : ChessGameState) (t : Nat)
    (v v' : Int → Int → Bool) (d : Nat) (h : ∀ x y, v x y = v' x y) :
    attackScan {s with turn := t} v d = attackScan s v' d := by
  have hv : v = v' := funext fun x => funext fun y => h x y
  subst hv
  rfl

theorem isValidMoveCore_modTurn (cc cc' : ChessBoardTile → Int → Int → Bool)
    (s : ChessGameState) (t : Nat) (fx fy tx ty : Int) (ig : Bool)
    (ht : s.participants.get? (t % s.participants.length) =
      s.participants.get? (s.turn % s.participants.length))
    (hcc : cc = cc') :
    isValidMoveCore cc {s with turn := t} fx fy tx ty ig =
      isValidMoveCore cc' s fx fy tx ty ig := by
  subst hcc
  rw [Bool.eq_iff_iff]
  rw [isValidMoveCore_eq_true_iff, isValidMoveCore_eq_true_iff]
  dsimp only
  rw [show areTeammates {s with turn := t} = areTeammates s from rfl]
  rw [show isValidPawnMove {s with turn := t} = isValidPawnMove s from rfl]
  rw [ht]

/-- The legality check only consumes the turn through
`turn % participants.length`, so reducing the turn modulo the
participant count never changes its verdict, at any fuel. -/
theorem isValidMove_modTurn (fuel : Nat) :
    ∀ (s : ChessGameState) (fx fy tx ty : Int) (ig : Bool),
      isValidMove fuel {s with turn := s.turn % s.participants.length}
        fx fy tx ty ig = isValidMove fuel s fx fy tx ty ig := by
  induction fuel with
  | zero =>
    intro s fx fy tx ty ig
    rw [isValidMove_zero, isValidMove_zero]
    exact isValidMoveCore_modTurn _ _ s _ fx fy tx ty ig
      (by rw [Nat.mod_mod_of_dvd _ dvd_rfl]) rfl
  | succ n ih =>
    intro s fx fy tx ty ig
    rw [isValidMove_succ, isValidMove_succ]
    apply isValidMoveCore_modTurn
    · rw [Nat.mod_mod_of_dvd _ dvd_rfl]
    · funext kt a b
      have hA : (fun ax ay => isSquareUnderAttack n
          {s with turn := s.turn % s.participants.length} ax ay
          kt.owner_identifier) =
          (fun ax ay => isSquareUnderAttack n s ax ay
            kt.owner_identifier) := by
        funext ax ay
        unfold isSquareUnderAttack
        exact attackScan_modTurn s _ _ _ _ fun x y => ih s x y ax ay true
      rw [hA]
      rfl

theorem findSome?_const_none {A B : Type} (l : List A) :
    l.findSome? (fun _ => (none : Option B)) = none := by
  induction l with
  | nil => rfl
  | cons a l ih => simp [List.findSome?_cons, ih]

theorem find?_const_false {A : Type} (l : List A) :
    l.find? (fun _ => false) = none :=
  List.find?_eq_none.mpr fun _ _ => by simp

/-- C6 (amended): only `isValidMove`'s turn check self-corrects an
out-of-range turn index (it indexes `participants[turn mod count]`, so
reducing the turn modulo the count never changes the verdict); the
active-color field of `toFEN` and the SAN layer's current-player
lookups index `participants[turn]` directly, so an out-of-range index
finds no participant there — active color falls back to `b`, castling
parsing finds no king, and the candidate scan finds no pieces. -/
theorem turn_index_semantics :
    (∀ (fuel : Nat) (s : ChessGameState) (fx fy tx ty : Int) (ig : Bool),
      isValidMove fuel {s with turn := s.turn % s.participants.length}
        fx fy tx ty ig = isValidMove fuel s fx fy tx ty ig) ∧
    (∀ s : ChessGameState, s.participants.length ≤ s.turn →
      fenActiveColor s = "b") ∧
    (∀ (s : ChessGameState) (san : String),
      s.participants.length ≤ s.turn →
      parseCastling s san = Except.error "King not found for castling") ∧
    (∀ (s : ChessGameState) (pt : Nat) (tx ty : Int),
      s.participants.length ≤ s.turn → findCandidates s pt tx ty = []) := by
  refine ⟨fun fuel => isValidMove_modTurn fuel, ?_, ?_, ?_⟩
  · intro s h
    have hp : s.participants[s.turn]? = none := by
      rw [List.getElem?_eq_none_iff]
      exact h
    simp [fenActiveColor, hp]
  · intro s san h
    have hp : s.participants[s.turn]? = none := by
      rw [List.getElem?_eq_none_iff]
      exact h
    simp [parseCastling, hp, Function.comp, findSome?_const_none,
      find?_const_false]
  · intro s pt tx ty h
    have hp : s.participants[s.turn]? = none := by
      rw [List.getElem?_eq_none_iff]
      exact h
    simp [findCandidates, hp]

/-- Witness for C6 at concrete values: the 1×1 state with `turn = 2`
over two participants. -/
theorem turn_index_semantics_witness :
    (isValidMove 0 {overTurnState with turn :=
        overTurnState.turn % overTurnState.participants.length} 0 0 1 1 false
      = isValidMove 0 overTurnState 0 0 1 1 false) ∧
    (overTurnState.participants.length ≤ overTurnState.turn) ∧
    fenActiveColor overTurnState = "b" ∧
    parseCastling overTurnState "O-O" =
      Except.error "King not found for castling" ∧
    findCandidates overTurnState 6 0 0 = [] :=
  ⟨turn_index_semantics.1 0 overTurnState 0 0 1 1 false, by decide,
    turn_index_semantics.2.1 overTurnState (by decide),
    turn_index_semantics.2.2.1 overTurnState "O-O" (by decide),
    turn_index_semantics.2.2.2 overTurnState 6 0 0 (by decide)⟩

/-! ## C2: SAN candidate resolution -/

theorem charToPieceType_lt (c : Option Char) : charToPieceType c < 250 := by
  unfold charToPieceType
  split <;> norm_num

theorem getTile_coords_of_piece_ne (b : ChessBoard) (x y : Int)
    (h : (b.getTile x y).piece ≠ 250) :
    (b.getTile x y).x = some x ∧ (b.getTile x y).y = some y := by
  by_cases hc : b.isOutOfBounds x y = true
  · rw [getTile_oob b x y hc] at h ⊢
    simp at h
  · have hc' : b.isOutOfBounds x y = false := by
      revert hc; cases b.isOutOfBounds x y <;> simp
    exact getTile_coords b x y hc'

/-- The SAN candidate scan collects exactly the matching tiles of the
fixed 8×8 window (coordinates 0–7) owned by `participants[turn]`. -/
theorem findCandidates_mem (s : ChessGameState) (pt : Nat) (toX toY : Int)
    (t : ChessBoardTile) :
    t ∈ findCandidates s pt toX toY ↔
      ∃ xn yn : Nat, xn < 8 ∧ yn < 8 ∧
        t = s.board.getTile (xn : Int) (yn : Int) ∧ t.piece = pt ∧
        s.participants.get? s.turn = some t.owner_identifier := by
  unfold findCandidates
  rw [List.mem_flatMap]
  constructor
  · rintro ⟨yn, hyn, hmem⟩
    rw [List.mem_range] at hyn
    rw [List.mem_filterMap] at hmem
    obtain ⟨xn, hxn, hif⟩ := hmem
    rw [List.mem_range] at hxn
    cases hpid : s.participants.get? s.turn with
    | none =>
      rw [hpid] at hif
      simp at hif
    | some p =>
      rw [hpid] at hif
      dsimp only at hif
      split at hif
      · next hcond =>
        rw [Option.some_inj] at hif
        subst hif
        simp only [Bool.and_eq_true, beq_iff_eq] at hcond
        exact ⟨xn, yn, hxn, hyn, rfl, hcond.1, by rw [hcond.2]⟩
      · simp at hif
  · rintro ⟨xn, yn, hxn, hyn, ht, hpiece, hpid⟩
    refine ⟨yn, List.mem_range.mpr hyn, ?_⟩
    rw [List.mem_filterMap]
    refine ⟨xn, List.mem_range.mpr hxn, ?_⟩
    rw [hpid]
    dsimp only
    rw [if_pos ?_]
    · rw [ht]
    · rw [← ht, hpiece]
      simp

theorem mem_of_mem_disambigFilter (d : List Char)
    (l : List ChessBoardTile) (t : ChessBoardTile)
    (h : t ∈ disambigFilter d l) : t ∈ l := by
  unfold disambigFilter at h
  split at h
  · exact h
  · split at h
    · exact (List.mem_filter.mp h).1
    · split at h
      · exact (List.mem_filter.mp h).1
      · exact (List.mem_filter.mp h).1
  · split at h
    · exact (List.mem_filter.mp h).1
    · exact (List.mem_filter.mp h).1

/-- C2 (amended): for a SAN string matching the move grammar,
`parseMove` collects every friendly piece of the named type within the
fixed 8×8 scan window (the whole board when it is at most 8×8 — the
last conjunct characterizes the candidate set), narrows by
disambiguation and legality, and resolves on the number of remaining
candidates: exactly one yields the move, zero yields the
"no legal move" error, several yield the distinct "ambiguous" error
reporting the count. -/
theorem parseMove_resolution (fuel : Nat) (s : ChessGameState) (san : String)
    (m : SanParts) (valid : List ChessBoardTile)
    (hOO : stripCheck san ≠ "O-O") (hOOO : stripCheck san ≠ "O-O-O")
    (hm : sanMatch (stripCheck san) = some m)
    (hvalid : valid = (disambigFilter m.disambig
      (findCandidates s (charToPieceType m.pieceChar)
        (fileIdxOf m.targetFile)
        (8 - ((m.targetRankChar.toNat - 48 : Nat) : Int)))).filter
      (fun c => isValidMove fuel s (c.x.getD 0) (c.y.getD 0)
        (fileIdxOf m.targetFile)
        (8 - ((m.targetRankChar.toNat - 48 : Nat) : Int)) false)) :
    (valid.length = 0 →
      parseMove fuel s san =
        Except.error ("No legal move found for " ++ san)) ∧
    (1 < valid.length →
      parseMove fuel s san = Except.error ("Ambiguous move " ++ san ++
        ": found " ++ toString valid.length ++ " candidates")) ∧
    (∀ c, valid = [c] → ∃ cx cy, c.x = some cx ∧ c.y = some cy ∧
      parseMove fuel s san = Except.ok ⟨cx, cy, fileIdxOf m.targetFile,
        8 - ((m.targetRankChar.toNat - 48 : Nat) : Int),
        m.promo.map (fun ch => charToPieceType (some ch))⟩) ∧
    (∀ t, t ∈ findCandidates s (charToPieceType m.pieceChar)
        (fileIdxOf m.targetFile)
        (8 - ((m.targetRankChar.toNat - 48 : Nat) : Int)) ↔
      ∃ xn yn : Nat, xn < 8 ∧ yn < 8 ∧
        t = s.board.getTile (xn : Int) (yn : Int) ∧
        t.piece = charToPieceType m.pieceChar ∧
        s.participants.get? s.turn = some t.owner_identifier) := by
  have hParse : parseMove fuel s san =
      (if valid.length == 0 then
        Except.error ("No legal move found for " ++ san)
      else if 1 < valid.length then
        Except.error ("Ambiguous move " ++ san ++ ": found " ++
          toString valid.length ++ " candidates")
      else
        match valid.head? with
        | none =>
          Except.error
            "Logic Error: Selected candidate is undefined or missing coordinates."
        | some sel =>
          match sel.x, sel.y with
          | some sx, some sy => Except.ok ⟨sx, sy, fileIdxOf m.targetFile,
              8 - ((m.targetRankChar.toNat - 48 : Nat) : Int),
              m.promo.map (fun ch => charToPieceType (some ch))⟩
          | _, _ =>
            Except.error
              "Logic Error: Selected candidate is undefined or missing coordinates.") := by
    unfold parseMove
    rw [if_neg (by simp [hOO, hOOO]), hm]
    rw [hvalid]
  refine ⟨?_, ?_, ?_, fun t => findCandidates_mem s _ _ _ t⟩
  · intro h0
    rw [hParse, if_pos (by simp [h0])]
  · intro h1
    have h0 : valid.length ≠ 0 := by omega
    rw [hParse, if_neg (by simp [h0]), if_pos h1]
  · intro c hc
    have hmem : c ∈ valid := by rw [hc]; simp
    have hcand := mem_of_mem_disambigFilter _ _ c
      ((List.mem_filter.mp (hvalid ▸ hmem)).1)
    rw [findCandidates_mem] at hcand
    obtain ⟨xn, yn, hxn, hyn, ht, hpiece, hpid⟩ := hcand
    have hne : (s.board.getTile (xn : Int) (yn : Int)).piece ≠ 250 := by
      rw [← ht, hpiece]
      have := charToPieceType_lt m.pieceChar
      omega
    obtain ⟨hcx, hcy⟩ := getTile_coords_of_piece_ne s.board _ _ hne
    refine ⟨xn, yn, by rw [ht]; exact hcx, by rw [ht]; exact hcy, ?_⟩
    rw [hParse, if_neg (by simp [hc]), if_neg (by rw [hc]; simp)]
    rw [hc]
    simp only [List.head?_cons]
    rw [show c.x = some (xn : Int) from by rw [ht]; exact hcx,
      show c.y = some (yn : Int) from by rw [ht]; exact hcy]

/-- Counterexample to C2 as stated: on a 9-wide board, the only
friendly rook of the current player stands at (8,0) outside the 8×8
scan window; its move to the parsed target of `Rh8` is accepted by
`isValidMove`, yet `parseMove` reports no legal move instead of
resolving it as the unique candidate. -/
theorem parseMove_window_counterexample :
    parseMove 1 wideBoardState "Rh8" =
      Except.error "No legal move found for Rh8" ∧
    isValidMove 1 wideBoardState 8 0 7 0 false = true ∧
    (wideBoardState.board.getTile 8 0).piece = 6 ∧
    (wideBoardState.board.getTile 8 0).owner_identifier = 1 ∧
    wideBoardState.participants.get? wideBoardState.turn = some 1 := by
  refine ⟨by decide, by decide, by decide, by decide, by decide⟩

/-- Witness for C2: resolving the unambiguous `Kd1` on the
rook-and-kings board. -/
theorem parseMove_resolution_witness :
    (stripCheck "Kd1" ≠ "O-O") ∧ (stripCheck "Kd1" ≠ "O-O-O") ∧
    sanMatch (stripCheck "Kd1") =
      some ⟨some 'K', [], false, 'd', '1', none⟩ ∧
    ([(⟨3, 1, some 4, some 7⟩ : ChessBoardTile)] =
      (disambigFilter []
        (findCandidates rookKingsState (charToPieceType (some 'K'))
          (fileIdxOf 'd') (8 - ((('1').toNat - 48 : Nat) : Int)))).filter
        (fun c => isValidMove 1 rookKingsState (c.x.getD 0) (c.y.getD 0)
          (fileIdxOf 'd') (8 - ((('1').toNat - 48 : Nat) : Int)) false)) ∧
    ((([(⟨3, 1, some 4, some 7⟩ : ChessBoardTile)] :
        List ChessBoardTile).length = 0 →
      parseMove 1 rookKingsState "Kd1" =
        Except.error ("No legal move found for " ++ "Kd1")) ∧
    (1 < ([(⟨3, 1, some 4, some 7⟩ : ChessBoardTile)] :
        List ChessBoardTile).length →
      parseMove 1 rookKingsState "Kd1" =
        Except.error ("Ambiguous move " ++ "Kd1" ++ ": found " ++
          toString ([(⟨3, 1, some 4, some 7⟩ : ChessBoardTile)] :
            List ChessBoardTile).length ++ " candidates")) ∧
    (∀ c, ([(⟨3, 1, some 4, some 7⟩ : ChessBoardTile)] :
        List ChessBoardTile) = [c] →
      ∃ cx cy, c.x = some cx ∧ c.y = some cy ∧
        parseMove 1 rookKingsState "Kd1" = Except.ok ⟨cx, cy,
          fileIdxOf 'd', 8 - ((('1').toNat - 48 : Nat) : Int),
          (none : Option Char).map (fun ch => charToPieceType (some ch))⟩) ∧
    (∀ t, t ∈ findCandidates rookKingsState (charToPieceType (some 'K'))
        (fileIdxOf 'd') (8 - ((('1').toNat - 48 : Nat) : Int)) ↔
      ∃ xn yn : Nat, xn < 8 ∧ yn < 8 ∧
        t = rookKingsState.board.getTile (xn : Int) (yn : Int) ∧
        t.piece = charToPieceType (some 'K') ∧
        rookKingsState.participants.get? rookKingsState.turn =
          some t.owner_identifier)) :=
  ⟨by decide, by decide, by decide, by decide,
    parseMove_resolution 1 rookKingsState "Kd1"
      ⟨some 'K', [], false, 'd', '1', none⟩
      [(⟨3, 1, some 4, some 7⟩ : ChessBoardTile)] (by decide) (by decide)
      (by decide) (by decide)⟩

/-- Witness for C8 at a concrete out-of-bounds coordinate. -/
theorem board_access_total_witness :
    smallBoard.isOutOfBounds (-1) 5 = true ∧
      (smallBoard.getTile (-1) 5 = ⟨250, 0, none, none⟩ ∧
        (∀ piece owner, smallBoard.setTile (-1) 5 piece owner = smallBoard) ∧
        (∀ piece owner x' y',
          (smallBoard.setTile (-1) 5 piece owner).getTile x' y' =
            smallBoard.getTile x' y')) :=
  ⟨by decide, board_access_total smallBoard (-1) 5 (by decide)⟩
